import Mathlib

/-!
# BaseConvolutionLayer: a shallow embedding of `src/base_conv_layer.cpp`

The layer state is a record of the C++ members; every member function becomes a
function on that record.  Conventions:

* C++ `int` values are `Int`.  Signed overflow is undefined behaviour in C++, so
  the embedding describes the executions on which no `int` operation overflows.
* A raw buffer (`Dtype*`, `int*`) is a total map from offsets to values.
* `Dtype` is an arbitrary semiring `α`: the multiply primitive is taken to be
  exact, as its contract says.
* A failing `CHECK…` aborts the call; the call then returns `Except.error`.
  An access outside a `std::vector` is reported as `Error.OutOfRange`.
-/

namespace caffe

set_option linter.unusedVariables false

/-! ## Errors and loops -/

/-- The ways a call can abort. -/
inductive Error where
  | InvalidConfig
  | ShapeMismatch
  | BatchInconsistency
  | OutOfRange
  deriving DecidableEq

/-- The check `CHECK(cond)`: abort with `e` unless `cond` holds. -/
def CHECK (cond : Bool) (e : Error) : Except Error Unit :=
  if cond then .ok () else .error e

/-- The loop `for (int i = 0; i < n; ++i) s = body(i, s);` -/
def loop {σ : Type} (n : Nat) (body : Nat → σ → σ) (s : σ) : σ :=
  match n with
  | 0 => s
  | m + 1 => body m (loop m body s)

/-- The loop `for (int i = 0; i < n; ++i) s = body(i, s);` where the body may abort. -/
def loopM {σ : Type} (n : Nat) (body : Nat → σ → Except Error σ) (s : σ) :
    Except Error σ :=
  match n with
  | 0 => .ok s
  | m + 1 => loopM m body s >>= body m

/-- The assignment `data[i] = v` on a raw buffer. -/
def store {β : Type} (data : Nat → β) (i : Nat) (v : β) : Nat → β :=
  fun j => if j = i then v else data j

/-- The access `xs[i]` on a `std::vector`; outside the vector it is an error. -/
def vecAt {β : Type} (xs : List β) (i : Nat) : Except Error β :=
  match xs[i]? with
  | some v => .ok v
  | none => .error .OutOfRange

/-! ## Collaborators -/

/-- Modelled from the spec: the tensor buffer (`Blob`, declared in a header that
is not among the sources): a shape and contiguous storage, with shape
introspection (rank, per-axis extent, element count over a range of axes) and a
`reshape` that resizes the buffer. -/
structure Blob (α : Type) where
  shape_ : List Int
  data_ : Nat → α

/-- Modelled from the spec: `Blob::num_axes()`, the rank. -/
def Blob.num_axes {α : Type} (b : Blob α) : Int := b.shape_.length

/-- Modelled from the spec: `Blob::shape(index)`, the extent of one axis. -/
def Blob.shape {α : Type} (b : Blob α) (index : Int) : Except Error Int :=
  if 0 ≤ index then vecAt b.shape_ index.toNat else .error .OutOfRange

/-- Modelled from the spec: `Blob::count(start_axis, end_axis)`, the number of
elements over the axes `start_axis ≤ axis < end_axis`. -/
def Blob.count {α : Type} (b : Blob α) (start_axis end_axis : Int) : Except Error Int :=
  if 0 ≤ start_axis ∧ start_axis ≤ end_axis ∧ end_axis ≤ b.num_axes then
    .ok ((b.shape_.take end_axis.toNat).drop start_axis.toNat).prod
  else .error .OutOfRange

/-- Modelled from the spec: `Blob::count(start_axis)`, up to the last axis. -/
def Blob.countFrom {α : Type} (b : Blob α) (start_axis : Int) : Except Error Int :=
  b.count start_axis b.num_axes

/-- Modelled from the spec: `Blob::count()`, the total number of elements. -/
def Blob.countAll {α : Type} (b : Blob α) : Int := b.shape_.prod

/-- Modelled from the spec: `Blob::Reshape(shape)`; the storage is kept. -/
def Blob.Reshape {α : Type} (b : Blob α) (shape : List Int) : Blob α :=
  { b with shape_ := shape }

/-- Modelled from the spec: the configuration collaborator (`ConvolutionParameter`),
supplying the scalar kernel size, stride, pad, dilation and output-channel count. -/
structure ConvolutionParameter where
  kernel_size : Int
  stride : Int
  pad : Int
  dilation : Int
  output : Int

/-- The `layer_param_` member: only `convParam` is read. -/
structure LayerParameter where
  convParam : ConvolutionParameter

/-- The members of `BaseConvolutionLayer<Dtype>` (and of its base `Layer`:
`layer_param_`, `blobs_`). -/
structure BaseConvolutionLayer (α : Type) where
  layer_param_ : LayerParameter
  blobs_ : List (Blob α)
  bias_term_ : Bool
  channel_axis_ : Int
  num_spatial_axes_ : Int
  kernel_shape_ : Blob Int
  stride_ : Blob Int
  pad_ : Blob Int
  dilation_ : Blob Int
  is_1x1_ : Bool
  channels_ : Int
  num_output_ : Int
  conv_out_channels_ : Int
  conv_in_channels_ : Int
  kernel_dim_ : Int
  weight_offset_ : Int
  num_ : Int
  bottom_shape_ : List Int
  output_shape_ : List Int
  conv_out_spatial_dim_ : Int
  col_offset_ : Int
  output_offset_ : Int
  conv_input_shape_ : Blob Int
  col_buffer_shape_ : List Int
  col_buffer_ : Blob α
  bottom_dim_ : Int
  top_dim_ : Int
  num_kernels_im2col_ : Int
  num_kernels_col2im_ : Int
  out_spatial_dim_ : Int
  bias_multiplier_ : Blob α

variable {α : Type}

/-! ## LayerSetUp -/

/-- The loop of lines 64-69:
`is_1x1_ = true; for (i < n) { is_1x1_ &= k[i]==1 && s[i]==1 && p[i]==0; if (!is_1x1_) break; }`
started at axis `i` with `remaining` axes to go and the current flag. -/
def is_1x1_loop (kernel_shape_data stride_data pad_data : Nat → Int) :
    (remaining : Nat) → (i : Nat) → (flag : Bool) → Bool
  | 0, _, flag => flag
  | r + 1, i, flag =>
    let flag1 := flag &&
      (decide (kernel_shape_data i = 1) && decide (stride_data i = 1) &&
        decide (pad_data i = 0))
    if !flag1 then flag1
    else is_1x1_loop kernel_shape_data stride_data pad_data r (i + 1) flag1

/-- The plain conjunction over all axes of `kernel == 1 && stride == 1 && pad == 0`. -/
def all_axes_1x1 (kernel_shape_data stride_data pad_data : Nat → Int) (n : Nat) : Bool :=
  (List.range n).all fun i =>
    decide (kernel_shape_data i = 1) && decide (stride_data i = 1) &&
      decide (pad_data i = 0)

/-- The local `weight_shape` of lines 81-86 (computed, then not used). -/
def weight_shape (conv_out_channels_ conv_in_channels_ : Int)
    (num_spatial_axes_ : Int) (kernel_shape_data : Nat → Int) : List Int :=
  loop num_spatial_axes_.toNat (fun i ws => ws ++ [kernel_shape_data i])
    [conv_out_channels_, conv_in_channels_]

/-- The member `BaseConvolutionLayer::LayerSetUp(bottom, top)`, lines 11-89. -/
def LayerSetUp (L : BaseConvolutionLayer α) (bottom top : List (Blob α)) :
    Except Error (BaseConvolutionLayer α) := do
  let conv_param := L.layer_param_.convParam
  let channel_axis_ : Int := 1
  let first_spatial_axis : Int := channel_axis_ + 1
  let num_axes : Int := 4
  let num_spatial_axes_ : Int := num_axes - first_spatial_axis
  CHECK (decide (num_spatial_axes_ ≥ 0)) .InvalidConfig
  let bottom_dim_blob_shape : List Int := [num_spatial_axes_ + 1]
  let spatial_dim_blob_shape : List Int := [max num_spatial_axes_ 1]
  -- Setup filter kernel dimensions (kernel_shape_).
  let kernel_shape_data : Nat → Int :=
    loop num_spatial_axes_.toNat (fun i d => store d i conv_param.kernel_size)
      L.kernel_shape_.data_
  let _ ← loopM num_spatial_axes_.toNat
    (fun i _ => CHECK (decide (kernel_shape_data i > 0)) .InvalidConfig) ()
  -- Setup stride dimensions (stride_).
  let num_stride_dims : Int := 1
  let kDefaultStride : Int := 1
  let stride_data ← loopM num_spatial_axes_.toNat
    (fun i d => do
      let d1 := store d i (if num_stride_dims = 0 then kDefaultStride else conv_param.stride)
      CHECK (decide (d1 i > 0)) .InvalidConfig
      pure d1)
    L.stride_.data_
  -- Setup pad dimensions (pad_).
  let num_pad_dims : Int := 1
  let kDefaultPad : Int := 0
  let pad_data : Nat → Int :=
    loop num_spatial_axes_.toNat
      (fun i d => store d i (if num_pad_dims = 0 then kDefaultPad else conv_param.pad))
      L.pad_.data_
  -- Setup dilation dimensions (dilation_).
  let num_dilation_dims : Int := 1
  let kDefaultDilation : Int := 1
  let dilation_data : Nat → Int :=
    loop num_spatial_axes_.toNat
      (fun i d => store d i
        (if num_dilation_dims = 0 then kDefaultDilation else conv_param.dilation))
      L.dilation_.data_
  -- Special case: im2col is the identity for 1x1 convolution with stride 1
  -- and no padding, so flag for skipping the buffer and transformation.
  let is_1x1_ := is_1x1_loop kernel_shape_data stride_data pad_data
    num_spatial_axes_.toNat 0 true
  -- Configure output channels and groups.
  let bottom0 ← vecAt bottom 0
  let channels_ ← bottom0.shape channel_axis_
  let num_output_ := conv_param.output
  CHECK (decide (num_output_ > 0)) .InvalidConfig
  let conv_out_channels_ := num_output_
  let conv_in_channels_ := channels_
  -- Handle the parameters: weights and biases.
  let weight_shape_local :=
    weight_shape conv_out_channels_ conv_in_channels_ num_spatial_axes_ kernel_shape_data
  let blobs0 ← vecAt L.blobs_ 0
  let kernel_dim_ ← blobs0.countFrom 1
  let weight_offset_ := conv_out_channels_ * kernel_dim_
  pure { L with
    channel_axis_ := channel_axis_
    num_spatial_axes_ := num_spatial_axes_
    kernel_shape_ := { shape_ := spatial_dim_blob_shape, data_ := kernel_shape_data }
    stride_ := { shape_ := spatial_dim_blob_shape, data_ := stride_data }
    pad_ := { shape_ := spatial_dim_blob_shape, data_ := pad_data }
    dilation_ := { shape_ := spatial_dim_blob_shape, data_ := dilation_data }
    is_1x1_ := is_1x1_
    channels_ := channels_
    num_output_ := num_output_
    conv_out_channels_ := conv_out_channels_
    conv_in_channels_ := conv_in_channels_
    kernel_dim_ := kernel_dim_
    weight_offset_ := weight_offset_ }

/-! ## Reshape -/

/-- Modelled from the spec: `caffe_set(N, alpha, Y)` (declared in
`math_functions.hpp`, not among the sources) fills the first `N` entries of `Y`
with `alpha`; it builds the constant bias multiplier "filled with ones". -/
def caffe_set (N : Int) (alpha : α) (Y : Nat → α) : Nat → α :=
  fun i => if i < N.toNat then alpha else Y i

/-- Modelled from the spec: the output-shape hook of the standard forward
convolution (the override of the pure virtual `compute_output_shape`, not among
the sources): per axis `floor((input + 2*pad - dilation*(kernel-1) - 1) / stride) + 1`.
It reads the configuration and the input spatial shape from the layer. -/
def compute_output_shape (L : BaseConvolutionLayer α) : List Int :=
  (List.range L.num_spatial_axes_.toNat).map fun i =>
    let input_dim := L.bottom_shape_.getD ((L.channel_axis_ + 1).toNat + i) 0
    Int.fdiv
      (input_dim + 2 * L.pad_.data_ i - L.dilation_.data_ i * (L.kernel_shape_.data_ i - 1) - 1)
      (L.stride_.data_ i) + 1

/-- The member `BaseConvolutionLayer::Reshape(bottom, top)`, lines 91-148.  The pure
virtual `compute_output_shape()` is the parameter `hook`: it sees the layer and
yields the new `output_shape_`.  The reshaped `top` blobs are returned with the
new layer state. -/
def Reshape [One α] (hook : BaseConvolutionLayer α → List Int)
    (L : BaseConvolutionLayer α) (bottom top : List (Blob α)) :
    Except Error (BaseConvolutionLayer α × List (Blob α)) := do
  let first_spatial_axis : Int := L.channel_axis_ + 1
  let bottom0 ← vecAt bottom 0
  CHECK (decide (bottom0.num_axes = first_spatial_axis + L.num_spatial_axes_)) .ShapeMismatch
  let num_ ← bottom0.count 0 L.channel_axis_
  let channels ← bottom0.shape L.channel_axis_
  CHECK (decide (channels = L.channels_)) .ShapeMismatch
  -- TODO: generalize to handle inputs of different shapes.
  let _ ← loopM (bottom.length - 1)
    (fun t _ => do
      let bottom_id := t + 1
      let b ← vecAt bottom bottom_id
      CHECK (decide (bottom0.shape_ = b.shape_)) .BatchInconsistency)
    ()
  -- Shape the tops.
  let bottom_shape_ := bottom0.shape_
  let output_shape_ := hook { L with num_ := num_, bottom_shape_ := bottom_shape_ }
  let top_shape0 : List Int := bottom0.shape_.take L.channel_axis_.toNat
  let top_shape1 := top_shape0 ++ [L.num_output_]
  let top_shape ← loopM L.num_spatial_axes_.toNat
    (fun i ts => do
      let v ← vecAt output_shape_ i
      pure (ts ++ [v]))
    top_shape1
  let top1 := top.map fun t => t.Reshape top_shape
  let top0 ← vecAt top1 0
  let conv_out_spatial_dim_ ← top0.countFrom first_spatial_axis
  let col_offset_ := L.kernel_dim_ * conv_out_spatial_dim_
  let output_offset_ := L.conv_out_channels_ * conv_out_spatial_dim_
  -- Setup input dimensions (conv_input_shape_).
  let bottom_dim_blob_shape : List Int := [L.num_spatial_axes_ + 1]
  let conv_input_shape_data ← loopM (L.num_spatial_axes_ + 1).toNat
    (fun i d => do
      let v ← bottom0.shape (L.channel_axis_ + i)
      pure (store d i v))
    L.conv_input_shape_.data_
  -- The im2col result buffer will only hold one image at a time.
  let col_buffer_shape_ ← loopM L.num_spatial_axes_.toNat
    (fun i cs => do
      let v ← vecAt output_shape_ i
      pure (cs ++ [v]))
    [L.kernel_dim_]
  let col_buffer_ := L.col_buffer_.Reshape col_buffer_shape_
  let bottom_dim_ ← bottom0.countFrom L.channel_axis_
  let top_dim_ ← top0.countFrom L.channel_axis_
  let num_kernels_im2col_ := L.conv_in_channels_ * conv_out_spatial_dim_
  let num_kernels_col2im_ := bottom_dim_
  -- Set up the all ones "bias multiplier" for adding biases by BLAS
  let out_spatial_dim_ ← top0.countFrom first_spatial_axis
  let bias_multiplier_ :=
    if L.bias_term_ then
      let bm := L.bias_multiplier_.Reshape [out_spatial_dim_]
      { bm with data_ := caffe_set bm.countAll 1 bm.data_ }
    else L.bias_multiplier_
  pure ({ L with
    num_ := num_
    bottom_shape_ := bottom_shape_
    output_shape_ := output_shape_
    conv_out_spatial_dim_ := conv_out_spatial_dim_
    col_offset_ := col_offset_
    output_offset_ := output_offset_
    conv_input_shape_ := { shape_ := bottom_dim_blob_shape, data_ := conv_input_shape_data }
    col_buffer_shape_ := col_buffer_shape_
    col_buffer_ := col_buffer_
    bottom_dim_ := bottom_dim_
    top_dim_ := top_dim_
    num_kernels_im2col_ := num_kernels_im2col_
    num_kernels_col2im_ := num_kernels_col2im_
    out_spatial_dim_ := out_spatial_dim_
    bias_multiplier_ := bias_multiplier_ }, top1)

/-! ## The multiply primitive and the patch expansion -/

/-- The sum `f 0 + f 1 + … + f (K-1)`, accumulated in index order. -/
def sumTo [Zero α] [Add α] (f : Nat → α) : Nat → α
  | 0 => 0
  | k + 1 => sumTo f k + f k

/-- Modelled from the spec: the multiply primitive `caffe_cpu_gemm` (declared in
`math_functions.hpp`, not among the sources) with both operands untransposed and
row-major storage: `C = alpha * A * B + beta * C` for `A : M × K`, `B : K × N`,
`C : M × N`.  Entries of `C` outside the `M × N` block are not touched. -/
def caffe_cpu_gemm [Semiring α] (M N K : Int) (alpha : α) (A B : Nat → α) (beta : α)
    (C : Nat → α) : Nat → α :=
  fun idx =>
    if idx < M.toNat * N.toNat then
      let i := idx / N.toNat
      let j := idx % N.toNat
      alpha * sumTo (fun k => A (i * K.toNat + k) * B (k * N.toNat + j)) K.toNat + beta * C idx
    else C idx

/-- Row-major multi-index of the flat position `j` in an array of the given extents. -/
def unravel : List Nat → Nat → List Nat
  | [], _ => []
  | _ :: ds, j => j / ds.prod :: unravel ds (j % ds.prod)

/-- Row-major flat position of a multi-index in an array of the given extents. -/
def ravel : List Int → List Int → Int
  | _ :: ds, p :: ps => p * ds.prod + ravel ds ps
  | _, _ => 0

/-- Modelled from the spec: the patch expansion (im2col) of one input sample.
The sample has shape `[channels, *in_shape]`, the buffer has
`channels * prod kernel` rows and `prod out_shape` columns; the entry in row
`(c, kpos)` (channel-major, then kernel position) and column `opos` is the input
value of channel `c` at `opos * stride - pad + kpos * dilation` per axis, and zero
when that position falls outside the input.  Entries of the buffer outside the
matrix are not touched. -/
def im2col [Zero α] (data : Nat → α) (channels : Nat) (in_shape : List Int)
    (kernel out_shape : List Nat) (stride pad dilation : Nat → Int)
    (col : Nat → α) : Nat → α :=
  fun idx =>
    if idx < channels * kernel.prod * out_shape.prod then
      let row := idx / out_shape.prod
      let opos := unravel out_shape (idx % out_shape.prod)
      let c := row / kernel.prod
      let kpos := unravel kernel (row % kernel.prod)
      let ipos : List Int := (List.range in_shape.length).map fun i =>
        (opos.getD i 0 : Int) * stride i - pad i + (kpos.getD i 0 : Int) * dilation i
      if (List.range in_shape.length).all
          (fun i => decide (0 ≤ ipos.getD i 0) && decide (ipos.getD i 0 < in_shape.getD i 0)) then
        data ((c : Int) * in_shape.prod + ravel in_shape ipos).toNat
      else 0
    else col idx

/-- Modelled from the spec: `conv_im2col_cpu(data, col_buff)` (an inline member
declared in the layer's header, not among the sources): the patch expansion run
with the layer's resolved geometry: `conv_in_channels_` channels, the input
spatial shape `conv_input_shape_[1..]`, the kernel, stride, pad and dilation
vectors, and the output spatial shape `col_buffer_shape_[1..]`. -/
def conv_im2col_cpu [Zero α] (L : BaseConvolutionLayer α) (data col_buff : Nat → α) :
    Nat → α :=
  im2col data L.conv_in_channels_.toNat
    ((List.range L.num_spatial_axes_.toNat).map fun i => L.conv_input_shape_.data_ (i + 1))
    ((List.range L.num_spatial_axes_.toNat).map fun i => (L.kernel_shape_.data_ i).toNat)
    ((List.range L.num_spatial_axes_.toNat).map fun i => (L.col_buffer_shape_.getD (i + 1) 0).toNat)
    L.stride_.data_ L.pad_.data_ L.dilation_.data_ col_buff

/-! ## The forward pass -/

/-- The member `BaseConvolutionLayer::forward_cpu_gemm(input, weights, output, skip_im2col)`,
lines 150-163.  Returns the layer (its `col_buffer_` may have been written) and
the `output` buffer. -/
def forward_cpu_gemm [Semiring α] (L : BaseConvolutionLayer α)
    (input weights output : Nat → α) (skip_im2col : Bool) :
    BaseConvolutionLayer α × (Nat → α) :=
  let col_buff := input
  if !L.is_1x1_ then
    let L1 :=
      if !skip_im2col then
        { L with col_buffer_ :=
            { L.col_buffer_ with data_ := conv_im2col_cpu L input L.col_buffer_.data_ } }
      else L
    let col_buff := L1.col_buffer_.data_
    (L1, caffe_cpu_gemm L1.conv_out_channels_ L1.conv_out_spatial_dim_ L1.kernel_dim_
      1 weights col_buff 0 output)
  else
    (L, caffe_cpu_gemm L.conv_out_channels_ L.conv_out_spatial_dim_ L.kernel_dim_
      1 weights col_buff 0 output)

/-- The member `BaseConvolutionLayer::forward_cpu_bias(output, bias)`, lines 165-171. -/
def forward_cpu_bias [Semiring α] (L : BaseConvolutionLayer α)
    (output bias : Nat → α) : Nat → α :=
  caffe_cpu_gemm L.num_output_ L.out_spatial_dim_ 1 1 bias L.bias_multiplier_.data_ 1 output

/-! ## Derived descriptions of the states the member functions produce -/

/-- The layer that `LayerSetUp` returns when all its checks pass, written out:
`c` is the channel extent of `bottom[0]` and `kd` is `blobs_[0]->count(1)`. -/
def setUpState (L : BaseConvolutionLayer α) (c kd : Int) : BaseConvolutionLayer α :=
  let p := L.layer_param_.convParam
  let kernel_shape_data := store (store L.kernel_shape_.data_ 0 p.kernel_size) 1 p.kernel_size
  let stride_data := store (store L.stride_.data_ 0 p.stride) 1 p.stride
  let pad_data := store (store L.pad_.data_ 0 p.pad) 1 p.pad
  let dilation_data := store (store L.dilation_.data_ 0 p.dilation) 1 p.dilation
  { L with
    channel_axis_ := 1
    num_spatial_axes_ := 2
    kernel_shape_ := { shape_ := [2], data_ := kernel_shape_data }
    stride_ := { shape_ := [2], data_ := stride_data }
    pad_ := { shape_ := [2], data_ := pad_data }
    dilation_ := { shape_ := [2], data_ := dilation_data }
    is_1x1_ := is_1x1_loop kernel_shape_data stride_data pad_data 2 0 true
    channels_ := c
    num_output_ := p.output
    conv_out_channels_ := p.output
    conv_in_channels_ := c
    kernel_dim_ := kd
    weight_offset_ := p.output * kd }

/-- The layer `L` with another configuration. -/
def withParam (L : BaseConvolutionLayer α) (p : ConvolutionParameter) :
    BaseConvolutionLayer α :=
  { L with layer_param_ := { convParam := p } }

/-! ## Concrete inputs -/

/-- A buffer holding zeros. -/
def zeroBlob (shape : List Int) : Blob Int := { shape_ := shape, data_ := fun _ => 0 }

/-- A layer on which no member function has run yet, with the configuration `p`,
the parameter blobs `blobs` and the bias switch `bias`. -/
def freshLayer (p : ConvolutionParameter) (blobs : List (Blob Int)) (bias : Bool) :
    BaseConvolutionLayer Int :=
  { layer_param_ := { convParam := p }
    blobs_ := blobs
    bias_term_ := bias
    channel_axis_ := 0
    num_spatial_axes_ := 0
    kernel_shape_ := zeroBlob []
    stride_ := zeroBlob []
    pad_ := zeroBlob []
    dilation_ := zeroBlob []
    is_1x1_ := false
    channels_ := 0
    num_output_ := 0
    conv_out_channels_ := 0
    conv_in_channels_ := 0
    kernel_dim_ := 0
    weight_offset_ := 0
    num_ := 0
    bottom_shape_ := []
    output_shape_ := []
    conv_out_spatial_dim_ := 0
    col_offset_ := 0
    output_offset_ := 0
    conv_input_shape_ := zeroBlob []
    col_buffer_shape_ := []
    col_buffer_ := zeroBlob []
    bottom_dim_ := 0
    top_dim_ := 0
    num_kernels_im2col_ := 0
    num_kernels_col2im_ := 0
    out_spatial_dim_ := 0
    bias_multiplier_ := zeroBlob [] }

/-- The layer as the output-shape hook sees it inside `Reshape`: `num_` and
`bottom_shape_` have been set from `bottom[0]` (lines 97 and 106). -/
@[reducible]
def hookInput (L : BaseConvolutionLayer α) (b0 : Blob α) : BaseConvolutionLayer α :=
  { L with num_ := (b0.shape_.take L.channel_axis_.toNat).prod, bottom_shape_ := b0.shape_ }

/-- The shape `Reshape` gives to every `top` blob: the axes of `bottom[0]` before
the channel axis, then `num_output_`, then the first `num_spatial_axes_` entries
of the hook's result. -/
def reshapeTopShape (hook : BaseConvolutionLayer α → List Int)
    (L : BaseConvolutionLayer α) (b0 : Blob α) : List Int :=
  let ca := L.channel_axis_.toNat
  let out := hook (hookInput L b0)
  b0.shape_.take ca ++ [L.num_output_] ++ out.take L.num_spatial_axes_.toNat

/-- The layer that `Reshape` returns when all its checks pass, written out;
`b0` is `bottom[0]`. -/
def reshapeState [One α] (hook : BaseConvolutionLayer α → List Int)
    (L : BaseConvolutionLayer α) (b0 : Blob α) : BaseConvolutionLayer α :=
  let ca := L.channel_axis_.toNat
  let n := L.num_spatial_axes_.toNat
  let num_ := (b0.shape_.take ca).prod
  let out := hook (hookInput L b0)
  let osd := (out.take n).prod
  { L with
    num_ := num_
    bottom_shape_ := b0.shape_
    output_shape_ := out
    conv_out_spatial_dim_ := osd
    col_offset_ := L.kernel_dim_ * osd
    output_offset_ := L.conv_out_channels_ * osd
    conv_input_shape_ :=
      { shape_ := [L.num_spatial_axes_ + 1]
        data_ := fun i =>
          if i < n + 1 then b0.shape_.getD (ca + i) 0 else L.conv_input_shape_.data_ i }
    col_buffer_shape_ := L.kernel_dim_ :: out.take n
    col_buffer_ := L.col_buffer_.Reshape (L.kernel_dim_ :: out.take n)
    bottom_dim_ := (b0.shape_.drop ca).prod
    top_dim_ := L.num_output_ * osd
    num_kernels_im2col_ := L.conv_in_channels_ * osd
    num_kernels_col2im_ := (b0.shape_.drop ca).prod
    out_spatial_dim_ := osd
    bias_multiplier_ :=
      if L.bias_term_ then
        { shape_ := [osd], data_ := caffe_set osd 1 L.bias_multiplier_.data_ }
      else L.bias_multiplier_ }

/-- Modelled from the spec: the forward multiply "running the full expansion":
the patch expansion is run into the expansion buffer and the weights are
multiplied by that buffer, whatever `is_1x1_` is. -/
def forward_by_expansion [Semiring α] (L : BaseConvolutionLayer α)
    (input weights output : Nat → α) : Nat → α :=
  caffe_cpu_gemm L.conv_out_channels_ L.conv_out_spatial_dim_ L.kernel_dim_
    1 weights (conv_im2col_cpu L input L.col_buffer_.data_) 0 output

/-! ## The accelerator path -/

/-- The member `BaseConvolutionLayer::forward_gpu_gemm(input, weights, output, skip_im2col)`,
lines 175-188.  The accelerator primitives `caffe_gpu_gemm` and `conv_im2col_gpu`
are declared elsewhere and are parameters here; `gpu_data()` and
`mutable_gpu_data()` give the contents of the buffer, as the host accessors do. -/
def forward_gpu_gemm [Semiring α]
    (caffe_gpu_gemm : Int → Int → Int → α → (Nat → α) → (Nat → α) → α → (Nat → α) → Nat → α)
    (conv_im2col_gpu : BaseConvolutionLayer α → (Nat → α) → (Nat → α) → Nat → α)
    (L : BaseConvolutionLayer α) (input weights output : Nat → α) (skip_im2col : Bool) :
    BaseConvolutionLayer α × (Nat → α) :=
  let col_buff := input
  if !L.is_1x1_ then
    let L1 :=
      if !skip_im2col then
        { L with col_buffer_ :=
            { L.col_buffer_ with data_ := conv_im2col_gpu L input L.col_buffer_.data_ } }
      else L
    let col_buff := L1.col_buffer_.data_
    (L1, caffe_gpu_gemm L1.conv_out_channels_ L1.conv_out_spatial_dim_ L1.kernel_dim_
      1 weights col_buff 0 output)
  else
    (L, caffe_gpu_gemm L.conv_out_channels_ L.conv_out_spatial_dim_ L.kernel_dim_
      1 weights col_buff 0 output)

/-- The member `BaseConvolutionLayer::forward_gpu_bias(output, bias)`, lines 190-196. -/
def forward_gpu_bias [Semiring α]
    (caffe_gpu_gemm : Int → Int → Int → α → (Nat → α) → (Nat → α) → α → (Nat → α) → Nat → α)
    (L : BaseConvolutionLayer α) (output bias : Nat → α) : Nat → α :=
  caffe_gpu_gemm L.num_output_ L.out_spatial_dim_ 1 1 bias L.bias_multiplier_.data_ 1 output

/-! # Theorems -/

/-! ## Basic facts about the loops and the collaborators -/

theorem vecAt_eq_ok_iff {β : Type} (xs : List β) (i : Nat) (v : β) :
    vecAt xs i = .ok v ↔ xs[i]? = some v := by
  unfold vecAt
  cases h : xs[i]? <;> simp

theorem vecAt_cons_zero {β : Type} (x : β) (xs : List β) : vecAt (x :: xs) 0 = .ok x := by
  simp [vecAt]

theorem vecAt_nil {β : Type} (i : Nat) : vecAt ([] : List β) i = .error .OutOfRange := by
  simp [vecAt]

/-- The early-exit loop, from any start, is the running flag conjoined with the
conjunction over the axes still to visit. -/
theorem is_1x1_loop_eq (ks ss ps : Nat → Int) :
    ∀ (r i : Nat) (flag : Bool),
      is_1x1_loop ks ss ps r i flag =
        (flag && (List.range' i r).all fun i =>
          decide (ks i = 1) && decide (ss i = 1) && decide (ps i = 0)) := by
  intro r
  induction r with
  | zero => intro i flag; simp [is_1x1_loop]
  | succ r ih =>
    intro i flag
    simp only [is_1x1_loop, List.range'_succ, List.all_cons, ih]
    cases flag <;>
      cases decide (ks i = 1) && decide (ss i = 1) && decide (ps i = 0) <;> simp

theorem is_1x1_loop_eq_all (ks ss ps : Nat → Int) (n : Nat) :
    is_1x1_loop ks ss ps n 0 true = all_axes_1x1 ks ss ps n := by
  rw [is_1x1_loop_eq, all_axes_1x1, List.range_eq_range']
  simp

theorem all_axes_1x1_iff (ks ss ps : Nat → Int) (n : Nat) :
    all_axes_1x1 ks ss ps n = true ↔ ∀ i, i < n → ks i = 1 ∧ ss i = 1 ∧ ps i = 0 := by
  simp [all_axes_1x1, List.all_eq_true, and_assoc]

/-! ## LayerSetUp -/

/-- The function `LayerSetUp` written as the chain of its checks. -/
theorem LayerSetUp_eq (L : BaseConvolutionLayer α) (bottom top : List (Blob α)) :
    LayerSetUp L bottom top =
      if 0 < L.layer_param_.convParam.kernel_size then
        if 0 < L.layer_param_.convParam.stride then
          (vecAt bottom 0 >>= fun b0 => b0.shape 1 >>= fun c =>
            if 0 < L.layer_param_.convParam.output then
              vecAt L.blobs_ 0 >>= fun w0 => w0.countFrom 1 >>= fun kd =>
                pure (setUpState L c kd)
            else .error .InvalidConfig)
        else .error .InvalidConfig
      else .error .InvalidConfig := by
  unfold LayerSetUp
  simp only [show ((4:Int) - (1 + 1)).toNat = 2 from rfl, loopM, loop, CHECK, store]
  by_cases hk : 0 < L.layer_param_.convParam.kernel_size
  · by_cases hs : 0 < L.layer_param_.convParam.stride
    · simp [hk, hs, bind, Except.bind, pure, Except.pure]
      cases vecAt bottom 0 with
      | error e => rfl
      | ok b0 =>
        dsimp only
        cases b0.shape 1 with
        | error e => rfl
        | ok c =>
          by_cases ho : 0 < L.layer_param_.convParam.output
          · simp [ho, setUpState]
          · simp [ho]
    · simp [hk, hs, bind, Except.bind, pure, Except.pure]
  · simp [hk, bind, Except.bind, pure, Except.pure]

/-- What a successful `LayerSetUp` establishes. -/
theorem LayerSetUp_ok {L L' : BaseConvolutionLayer α} {bottom top : List (Blob α)}
    (h : LayerSetUp L bottom top = .ok L') :
    0 < L.layer_param_.convParam.kernel_size ∧ 0 < L.layer_param_.convParam.stride ∧
      0 < L.layer_param_.convParam.output ∧
      ∃ b0 c w0 kd, vecAt bottom 0 = .ok b0 ∧ b0.shape 1 = .ok c ∧
        vecAt L.blobs_ 0 = .ok w0 ∧ w0.countFrom 1 = .ok kd ∧ L' = setUpState L c kd := by
  rw [LayerSetUp_eq] at h
  by_cases hk : 0 < L.layer_param_.convParam.kernel_size
  · by_cases hs : 0 < L.layer_param_.convParam.stride
    · simp only [hk, hs, if_true] at h
      cases hb : vecAt bottom 0 with
      | error e => simp [hb, bind, Except.bind] at h
      | ok b0 =>
        cases hc : b0.shape 1 with
        | error e => simp [hb, hc, bind, Except.bind] at h
        | ok c =>
          by_cases ho : 0 < L.layer_param_.convParam.output
          · cases hw : vecAt L.blobs_ 0 with
            | error e => simp [hb, hc, ho, hw, bind, Except.bind] at h
            | ok w0 =>
              cases hkd : w0.countFrom 1 with
              | error e => simp [hb, hc, ho, hw, hkd, bind, Except.bind] at h
              | ok kd =>
                simp [hb, hc, ho, hw, hkd, bind, Except.bind, pure, Except.pure] at h
                exact ⟨hk, hs, ho, b0, c, w0, kd, rfl, hc, rfl, hkd, h.symm⟩
          · simp [hb, hc, ho, bind, Except.bind] at h
    · simp [hk, hs] at h
  · simp [hk] at h

/-- C1: after a successful `LayerSetUp` the flag `is_1x1_` is true exactly when
kernel == 1, stride == 1 and pad == 0 on every spatial axis (equivalently, when
the configured kernel size is 1, the stride 1 and the pad 0); the early-exit loop
returns the plain conjunction over all axes, for any vectors and any number of
axes; and for every other dilation `LayerSetUp` succeeds too, with the same flag. -/
theorem C1_is_1x1_exact (L L' : BaseConvolutionLayer α) (bottom top : List (Blob α))
    (h : LayerSetUp L bottom top = .ok L') :
    (L'.is_1x1_ = true ↔ ∀ i : Nat, (i : Int) < L'.num_spatial_axes_ →
        L'.kernel_shape_.data_ i = 1 ∧ L'.stride_.data_ i = 1 ∧ L'.pad_.data_ i = 0) ∧
    (L'.is_1x1_ = true ↔ L.layer_param_.convParam.kernel_size = 1 ∧
        L.layer_param_.convParam.stride = 1 ∧ L.layer_param_.convParam.pad = 0) ∧
    (L'.is_1x1_ = all_axes_1x1 L'.kernel_shape_.data_ L'.stride_.data_ L'.pad_.data_
        L'.num_spatial_axes_.toNat) ∧
    (∀ (ks ss ps : Nat → Int) (n : Nat),
        is_1x1_loop ks ss ps n 0 true = all_axes_1x1 ks ss ps n) ∧
    (∀ d : Int, ∃ Ld : BaseConvolutionLayer α,
        LayerSetUp (withParam L { L.layer_param_.convParam with dilation := d }) bottom top
          = .ok Ld ∧ Ld.is_1x1_ = L'.is_1x1_) := by
  obtain ⟨hk, hs, ho, b0, c, w0, kd, hb, hc, hw, hkd, rfl⟩ := LayerSetUp_ok h
  have hflag : (setUpState L c kd).is_1x1_ =
      all_axes_1x1 (setUpState L c kd).kernel_shape_.data_ (setUpState L c kd).stride_.data_
        (setUpState L c kd).pad_.data_ 2 := by
    simp only [setUpState]
    rw [is_1x1_loop_eq_all]
  have hn : (setUpState L c kd).num_spatial_axes_ = 2 := rfl
  refine ⟨?_, ?_, ?_, is_1x1_loop_eq_all, ?_⟩
  · rw [hflag, all_axes_1x1_iff, hn]
    constructor
    · intro H i hi
      exact H i (by omega)
    · intro H i hi
      exact H i (by omega)
  · rw [hflag, all_axes_1x1_iff]
    simp only [setUpState, store]
    constructor
    · intro H
      simpa using H 0 (by omega)
    · intro H i hi
      have hi' : i = 0 ∨ i = 1 := by omega
      rcases hi' with rfl | rfl <;> simp [H.1, H.2.1, H.2.2]
  · rw [hflag]; rfl
  · intro d
    refine ⟨setUpState (withParam L { L.layer_param_.convParam with dilation := d }) c kd, ?_, ?_⟩
    · rw [LayerSetUp_eq]
      simp [withParam, hk, hs, ho, hb, hc, hw, hkd, bind, Except.bind, pure, Except.pure]
    · rfl

/-- The witness of C1: a 1x1 kernel with stride 1 and pad 0 on a 3-channel 4x4 input. -/
theorem C1_is_1x1_exact_witness :
    LayerSetUp (freshLayer ⟨1, 1, 0, 1, 2⟩ [zeroBlob [2, 3, 1, 1]] false)
        [zeroBlob [1, 3, 4, 4]] []
      = .ok (setUpState (freshLayer ⟨1, 1, 0, 1, 2⟩ [zeroBlob [2, 3, 1, 1]] false) 3 3) ∧
    (setUpState (freshLayer ⟨1, 1, 0, 1, 2⟩ [zeroBlob [2, 3, 1, 1]] false) 3 3).is_1x1_ = true :=
  ⟨rfl, (C1_is_1x1_exact (freshLayer ⟨1, 1, 0, 1, 2⟩ [zeroBlob [2, 3, 1, 1]] false) _
    [zeroBlob [1, 3, 4, 4]] [] rfl).2.1.mpr ⟨rfl, rfl, rfl⟩⟩

/-- C8: a configuration whose kernel size is not positive makes `LayerSetUp` fail
with `InvalidConfig`, whatever the inputs; the check is the loop over the spatial
axes of the broadcast kernel shape. -/
theorem C8_kernel_nonpositive_fails (L : BaseConvolutionLayer α) (bottom top : List (Blob α))
    (hk : L.layer_param_.convParam.kernel_size ≤ 0) :
    LayerSetUp L bottom top = .error .InvalidConfig ∧
    loopM 2 (fun i _ => CHECK (decide
        (loop 2 (fun i d => store d i L.layer_param_.convParam.kernel_size)
          L.kernel_shape_.data_ i > 0)) .InvalidConfig) ()
      = .error .InvalidConfig := by
  have hk' : ¬ 0 < L.layer_param_.convParam.kernel_size := by omega
  constructor
  · rw [LayerSetUp_eq]
    simp [hk']
  · simp [loopM, loop, store, CHECK, hk', bind, Except.bind]

/-- The witness of C8: kernel size 0. -/
theorem C8_kernel_nonpositive_fails_witness :
    LayerSetUp (freshLayer ⟨0, 1, 0, 1, 2⟩ [zeroBlob [2, 3, 1, 1]] false)
        [zeroBlob [1, 3, 4, 4]] [] = .error .InvalidConfig :=
  (C8_kernel_nonpositive_fails (freshLayer ⟨0, 1, 0, 1, 2⟩ [zeroBlob [2, 3, 1, 1]] false)
    [zeroBlob [1, 3, 4, 4]] [] (by decide)).1

/-- C9, the claim as stated fails: with dilation 0 (kernel 3, stride 1, pad 0,
one output channel) `LayerSetUp` succeeds and the dilation entries are 0. -/
theorem C9_counterexample :
    LayerSetUp (freshLayer ⟨3, 1, 0, 0, 1⟩ [zeroBlob [1, 1, 3, 3]] false)
        [zeroBlob [1, 1, 4, 4]] []
      = .ok (setUpState (freshLayer ⟨3, 1, 0, 0, 1⟩ [zeroBlob [1, 1, 3, 3]] false) 1 9) ∧
    ¬ (0 < (setUpState (freshLayer ⟨3, 1, 0, 0, 1⟩ [zeroBlob [1, 1, 3, 3]] false) 1 9
        ).dilation_.data_ 0) :=
  ⟨rfl, by decide⟩

/-- C9 as amended: after a successful `LayerSetUp` every entry of the kernel shape
and of the stride is strictly positive, and every entry of the dilation and of the
pad is the configured value, stored without a check; a kernel size or stride that
is not positive makes `LayerSetUp` fail with `InvalidConfig`. -/
theorem C9_setup_invariants (L : BaseConvolutionLayer α) (bottom top : List (Blob α)) :
    (∀ L' : BaseConvolutionLayer α, LayerSetUp L bottom top = .ok L' →
      ∀ i : Nat, (i : Int) < L'.num_spatial_axes_ →
        0 < L'.kernel_shape_.data_ i ∧ 0 < L'.stride_.data_ i ∧
        L'.dilation_.data_ i = L.layer_param_.convParam.dilation ∧
        L'.pad_.data_ i = L.layer_param_.convParam.pad) ∧
    (L.layer_param_.convParam.kernel_size ≤ 0 ∨ L.layer_param_.convParam.stride ≤ 0 →
      LayerSetUp L bottom top = .error .InvalidConfig) := by
  constructor
  · intro L' h i hi
    obtain ⟨hk, hs, ho, b0, c, w0, kd, hb, hc, hw, hkd, rfl⟩ := LayerSetUp_ok h
    have hi2 : (i : Int) < 2 := hi
    have hi' : i = 0 ∨ i = 1 := by omega
    rcases hi' with rfl | rfl <;> simp [setUpState, store, hk, hs]
  · intro hbad
    rw [LayerSetUp_eq]
    rcases hbad with hk | hs
    · have : ¬ 0 < L.layer_param_.convParam.kernel_size := by omega
      simp [this]
    · have : ¬ 0 < L.layer_param_.convParam.stride := by omega
      simp [this]

/-- The witness of C9 as amended: kernel 3, stride 2, pad 1, dilation 1. -/
theorem C9_setup_invariants_witness :
    0 < (setUpState (freshLayer ⟨3, 2, 1, 1, 1⟩ [zeroBlob [1, 1, 3, 3]] false) 1 9
        ).kernel_shape_.data_ 1 ∧
    0 < (setUpState (freshLayer ⟨3, 2, 1, 1, 1⟩ [zeroBlob [1, 1, 3, 3]] false) 1 9
        ).stride_.data_ 1 ∧
    (setUpState (freshLayer ⟨3, 2, 1, 1, 1⟩ [zeroBlob [1, 1, 3, 3]] false) 1 9
        ).dilation_.data_ 1 = 1 ∧
    (setUpState (freshLayer ⟨3, 2, 1, 1, 1⟩ [zeroBlob [1, 1, 3, 3]] false) 1 9
        ).pad_.data_ 1 = 1 :=
  (C9_setup_invariants (freshLayer ⟨3, 2, 1, 1, 1⟩ [zeroBlob [1, 1, 3, 3]] false)
    [zeroBlob [1, 1, 4, 4]] []).1 _ rfl 1 (by decide)

/-! ## Reshape -/

theorem vecAt_of_lt {β : Type} (xs : List β) (i : Nat) (h : i < xs.length) :
    vecAt xs i = .ok xs[i] := by
  unfold vecAt
  rw [List.getElem?_eq_getElem h]

theorem vecAt_of_ge {β : Type} (xs : List β) (i : Nat) (h : xs.length ≤ i) :
    vecAt xs i = .error .OutOfRange := by
  unfold vecAt
  rw [List.getElem?_eq_none h]

theorem loopM_push (out : List Int) (acc : List Int) (n : Nat) :
    loopM n (fun i ts => do
        let v ← vecAt out i
        pure (ts ++ [v])) acc
      = if n ≤ out.length then .ok (acc ++ out.take n) else .error .OutOfRange := by
  induction n with
  | zero => simp [loopM]
  | succ m ih =>
    rw [loopM, ih]
    by_cases h1 : m + 1 ≤ out.length
    · have h0 : m ≤ out.length := by omega
      have hm : m < out.length := by omega
      rw [if_pos h0, if_pos h1]
      simp only [bind, Except.bind, vecAt_of_lt out m hm, pure, Except.pure]
      rw [List.take_succ, List.getElem?_eq_getElem hm]
      simp
    · by_cases h0 : m ≤ out.length
      · have hm : out.length ≤ m := by omega
        rw [if_pos h0, if_neg h1]
        simp only [bind, Except.bind, vecAt_of_ge out m hm]
      · simp [h0, h1, bind, Except.bind]

theorem loopM_sameShape (b0 : Blob α) (bs : List (Blob α)) (m : Nat) (hm : m ≤ bs.length) :
    loopM m (fun t _ => do
        let bottom_id := t + 1
        let b ← vecAt (b0 :: bs) bottom_id
        CHECK (decide (b0.shape_ = b.shape_)) .BatchInconsistency) ()
      = if (bs.take m).all (fun b => decide (b0.shape_ = b.shape_)) then .ok ()
        else .error .BatchInconsistency := by
  induction m with
  | zero => simp [loopM]
  | succ k ih =>
    have hk : k < bs.length := by omega
    rw [loopM, ih (by omega)]
    by_cases hall : (bs.take k).all (fun b => decide (b0.shape_ = b.shape_)) = true
    · simp only [hall, if_true]
      have hv : vecAt (b0 :: bs) (k + 1) = .ok bs[k] := by
        rw [vecAt_of_lt (b0 :: bs) (k + 1) (by simp; omega)]
        simp
      simp only [bind, Except.bind, hv, CHECK]
      rw [List.take_succ, List.getElem?_eq_getElem hk]
      simp only [List.all_append, hall, Option.toList, List.all_cons, List.all_nil,
        Bool.true_and, Bool.and_true, decide_eq_true_eq]
    · rw [if_neg hall]
      have hall2 : ¬ (bs.take (k + 1)).all (fun b => decide (b0.shape_ = b.shape_)) = true := by
        rw [List.take_succ, List.all_append]
        simp only [Bool.and_eq_true, not_and]
        intro H
        exact absurd H hall
      rw [if_neg hall2]
      rfl

theorem loopM_shape_store (b0 : Blob α) (ca : Nat) (d0 : Nat → Int) (k : Nat)
    (hk : ca + k ≤ b0.shape_.length) :
    loopM k (fun i d => do
        let v ← b0.shape ((ca : Int) + i)
        pure (store d i v)) d0
      = .ok (fun j => if j < k then b0.shape_.getD (ca + j) 0 else d0 j) := by
  induction k with
  | zero => simp [loopM]
  | succ m ih =>
    rw [loopM, ih (by omega)]
    have hm : ca + m < b0.shape_.length := by omega
    have h0 : (0 : Int) ≤ (ca : Int) + (m : Int) := by omega
    have ht : ((ca : Int) + (m : Int)).toNat = ca + m := by omega
    have hs : b0.shape ((ca : Int) + (m : Int)) = .ok b0.shape_[ca + m] := by
      simp only [Blob.shape, h0, if_true, ht, vecAt_of_lt b0.shape_ (ca + m) hm]
    simp only [bind, Except.bind, hs, pure, Except.pure]
    congr 1
    funext j
    simp only [store]
    by_cases hj : j = m
    · subst hj
      simp [List.getD_eq_getElem?_getD, List.getElem?_eq_getElem hm]
    · have : (j < m + 1) ↔ (j < m) := by omega
      simp [hj, this]

theorem Blob.count_eq {β : Type} (b : Blob β) (s e : Nat) (hse : s ≤ e)
    (he : e ≤ b.shape_.length) :
    b.count (s : Int) (e : Int) = .ok ((b.shape_.take e).drop s).prod := by
  unfold Blob.count Blob.num_axes
  have h : (0 : Int) ≤ (s : Int) ∧ (s : Int) ≤ (e : Int) ∧ (e : Int) ≤ (b.shape_.length : Int) := by
    omega
  rw [if_pos h]
  simp

theorem Blob.countFrom_eq {β : Type} (b : Blob β) (s : Nat) (hs : s ≤ b.shape_.length) :
    b.countFrom (s : Int) = .ok (b.shape_.drop s).prod := by
  unfold Blob.countFrom Blob.num_axes
  rw [Blob.count_eq b s b.shape_.length hs (le_refl _)]
  simp

theorem drop_succ_mid (A B : List Int) (x : Int) (k : Nat) (hk : k = A.length) :
    (A ++ [x] ++ B).drop (k + 1) = B := by
  subst hk
  induction A with
  | nil => simp
  | cons a A ih => simp

theorem drop_mid (A B : List Int) (x : Int) (k : Nat) (hk : k = A.length) :
    (A ++ [x] ++ B).drop k = x :: B := by
  subst hk
  induction A with
  | nil => simp
  | cons a A ih => simp

theorem ok_bind {β γ : Type} (a : β) (f : β → Except Error γ) :
    ((Except.ok a : Except Error β) >>= f) = f a := rfl

theorem error_bind {β γ : Type} (e : Error) (f : β → Except Error γ) :
    ((Except.error e : Except Error β) >>= f) = .error e := rfl

theorem CHECK_true (e : Error) : CHECK true e = .ok () := rfl

theorem CHECK_false (e : Error) : CHECK false e = .error e := rfl

theorem Reshape_nil [One α] (hook : BaseConvolutionLayer α → List Int)
    (L : BaseConvolutionLayer α) (top : List (Blob α)) :
    Reshape hook L [] top = .error .OutOfRange := by
  unfold Reshape
  rw [vecAt_nil, error_bind]

/-- The function `Reshape` written as the chain of its checks. -/
theorem Reshape_eq [One α] (hook : BaseConvolutionLayer α → List Int)
    (L : BaseConvolutionLayer α) (b0 : Blob α) (bs top : List (Blob α)) :
    Reshape hook L (b0 :: bs) top =
      if (b0.shape_.length : Int) = L.channel_axis_ + 1 + L.num_spatial_axes_ then
        if 0 ≤ L.channel_axis_ ∧ L.channel_axis_ < b0.shape_.length then
          if b0.shape_.getD L.channel_axis_.toNat 0 = L.channels_ then
            if bs.all (fun b => decide (b0.shape_ = b.shape_)) then
              if L.num_spatial_axes_.toNat ≤ (hook (hookInput L b0)).length then
                if top.isEmpty then .error .OutOfRange
                else .ok (reshapeState hook L b0,
                  top.map fun t => t.Reshape (reshapeTopShape hook L b0))
              else .error .OutOfRange
            else .error .BatchInconsistency
          else .error .ShapeMismatch
        else .error .OutOfRange
      else .error .ShapeMismatch := by
  unfold Reshape
  rw [vecAt_cons_zero, ok_bind]
  simp only [Blob.num_axes]
  by_cases hrank : (b0.shape_.length : Int) = L.channel_axis_ + 1 + L.num_spatial_axes_
  swap
  · rw [if_neg hrank, decide_eq_false hrank, CHECK_false, error_bind]
  rw [if_pos hrank, decide_eq_true hrank, CHECK_true, ok_bind]
  by_cases hca : 0 ≤ L.channel_axis_ ∧ L.channel_axis_ < b0.shape_.length
  swap
  · rw [if_neg hca]
    by_cases h1 : 0 ≤ L.channel_axis_ ∧ L.channel_axis_ ≤ b0.shape_.length
    · have hs : b0.shape L.channel_axis_ = .error .OutOfRange := by
        unfold Blob.shape
        rw [if_pos h1.1, vecAt_of_ge _ _ (by omega)]
      have hc : b0.count 0 L.channel_axis_
          = .ok ((b0.shape_.take L.channel_axis_.toNat).drop 0).prod := by
        unfold Blob.count Blob.num_axes
        rw [if_pos (by omega)]
        rfl
      rw [hc, ok_bind, hs, error_bind]
    · have hc : b0.count 0 L.channel_axis_ = .error .OutOfRange := by
        unfold Blob.count Blob.num_axes
        rw [if_neg (by omega)]
      rw [hc, error_bind]
  rw [if_pos hca]
  have hcalt : L.channel_axis_.toNat < b0.shape_.length := by omega
  have hn0 : 0 ≤ L.num_spatial_axes_ := by omega
  have hlen : b0.shape_.length = L.channel_axis_.toNat + 1 + L.num_spatial_axes_.toNat := by
    omega
  have hcount : b0.count 0 L.channel_axis_
      = .ok (b0.shape_.take L.channel_axis_.toNat).prod := by
    unfold Blob.count Blob.num_axes
    rw [if_pos (by omega)]
    rfl
  have hshape : b0.shape L.channel_axis_ = .ok (b0.shape_.getD L.channel_axis_.toNat 0) := by
    unfold Blob.shape
    rw [if_pos hca.1, vecAt_of_lt _ _ hcalt]
    simp [List.getD_eq_getElem?_getD, List.getElem?_eq_getElem hcalt]
  rw [hcount, ok_bind, hshape, ok_bind]
  by_cases hch : b0.shape_.getD L.channel_axis_.toNat 0 = L.channels_
  swap
  · rw [if_neg hch, decide_eq_false hch, CHECK_false, error_bind]
  rw [if_pos hch, decide_eq_true hch, CHECK_true, ok_bind]
  have hloop := loopM_sameShape b0 bs bs.length (le_refl _)
  rw [List.take_length] at hloop
  have hl1 : (b0 :: bs).length - 1 = bs.length := by simp
  rw [hl1, hloop]
  by_cases hall : bs.all (fun b => decide (b0.shape_ = b.shape_)) = true
  swap
  · rw [if_neg hall, if_neg hall, error_bind]
  rw [if_pos hall, if_pos hall, ok_bind]
  rw [loopM_push, loopM_push]
  by_cases hout : L.num_spatial_axes_.toNat ≤ (hook (hookInput L b0)).length
  swap
  · have hout1 := hout
    simp only [hookInput] at hout1
    simp only [if_neg hout, if_neg hout1, error_bind]
  have hout1 := hout
  simp only [hookInput] at hout1
  simp only [if_pos hout, if_pos hout1, ok_bind]
  cases top with
  | nil =>
    rw [List.map_nil, vecAt_nil, error_bind]
    rfl
  | cons t ts =>
    rw [List.map_cons, vecAt_cons_zero, ok_bind]
    have hA : (b0.shape_.take L.channel_axis_.toNat).length = L.channel_axis_.toNat := by
      rw [List.length_take]
      omega
    have hB : ((hook (hookInput L b0)).take L.num_spatial_axes_.toNat).length
        = L.num_spatial_axes_.toNat := by
      rw [List.length_take]
      omega
    have hlenTS : (b0.shape_.take L.channel_axis_.toNat ++ [L.num_output_] ++
        (hook (hookInput L b0)).take L.num_spatial_axes_.toNat).length
          = L.channel_axis_.toNat + 1 + L.num_spatial_axes_.toNat := by
      rw [List.length_append, List.length_append, hA, hB, List.length_singleton]
    have hcf1 : (t.Reshape (b0.shape_.take L.channel_axis_.toNat ++ [L.num_output_] ++
        (hook (hookInput L b0)).take L.num_spatial_axes_.toNat)).countFrom (L.channel_axis_ + 1)
          = .ok ((hook (hookInput L b0)).take L.num_spatial_axes_.toNat).prod := by
      have hcast : L.channel_axis_ + 1 = ((L.channel_axis_.toNat + 1 : Nat) : Int) := by omega
      have hle : L.channel_axis_.toNat + 1 ≤ (t.Reshape
          (b0.shape_.take L.channel_axis_.toNat ++ [L.num_output_] ++
          (hook (hookInput L b0)).take L.num_spatial_axes_.toNat)).shape_.length := by
        simp only [Blob.Reshape]
        omega
      rw [hcast, Blob.countFrom_eq _ _ hle]
      simp only [Blob.Reshape]
      rw [drop_succ_mid _ _ _ _ hA.symm]
    have hcf0 : (t.Reshape (b0.shape_.take L.channel_axis_.toNat ++ [L.num_output_] ++
        (hook (hookInput L b0)).take L.num_spatial_axes_.toNat)).countFrom L.channel_axis_
          = .ok (L.num_output_ *
              ((hook (hookInput L b0)).take L.num_spatial_axes_.toNat).prod) := by
      have hcast : L.channel_axis_ = ((L.channel_axis_.toNat : Nat) : Int) := by omega
      have hle : L.channel_axis_.toNat ≤ (t.Reshape
          (b0.shape_.take L.channel_axis_.toNat ++ [L.num_output_] ++
          (hook (hookInput L b0)).take L.num_spatial_axes_.toNat)).shape_.length := by
        simp only [Blob.Reshape]
        omega
      have h := Blob.countFrom_eq _ _ hle
      rw [← hcast] at h
      rw [h]
      simp only [Blob.Reshape]
      rw [drop_mid _ _ _ _ hA.symm, List.prod_cons]
    have hbd : b0.countFrom L.channel_axis_ = .ok (b0.shape_.drop L.channel_axis_.toNat).prod := by
      have hcast : L.channel_axis_ = ((L.channel_axis_.toNat : Nat) : Int) := by omega
      have h := Blob.countFrom_eq b0 L.channel_axis_.toNat (by omega)
      rw [← hcast] at h
      exact h
    have hstore : loopM (L.num_spatial_axes_ + 1).toNat
        (fun i d => do
          let v ← b0.shape (L.channel_axis_ + i)
          pure (store d i v)) L.conv_input_shape_.data_
        = .ok (fun j => if j < L.num_spatial_axes_.toNat + 1
            then b0.shape_.getD (L.channel_axis_.toNat + j) 0
            else L.conv_input_shape_.data_ j) := by
      have h := loopM_shape_store b0 L.channel_axis_.toNat L.conv_input_shape_.data_
        (L.num_spatial_axes_.toNat + 1) (by omega)
      rw [Int.toNat_of_nonneg hca.1] at h
      have hn1 : (L.num_spatial_axes_ + 1).toNat = L.num_spatial_axes_.toNat + 1 := by omega
      rw [hn1]
      exact h
    simp only [hookInput] at hcf1 hcf0
    simp only [hcf1, hcf0, hbd, hstore, ok_bind]
    simp only [pure, Except.pure, reshapeState, reshapeTopShape, hookInput, Blob.Reshape,
      Blob.countAll, List.isEmpty_cons, List.map_cons, List.prod_cons, List.prod_nil, mul_one,
      List.singleton_append]
    rfl

/-- What a successful `Reshape` establishes. -/
theorem Reshape_ok [One α] {hook : BaseConvolutionLayer α → List Int}
    {L L' : BaseConvolutionLayer α} {bottom top top' : List (Blob α)}
    (h : Reshape hook L bottom top = .ok (L', top')) :
    ∃ b0 bs, bottom = b0 :: bs ∧
      (b0.shape_.length : Int) = L.channel_axis_ + 1 + L.num_spatial_axes_ ∧
      (0 ≤ L.channel_axis_ ∧ L.channel_axis_ < b0.shape_.length) ∧
      b0.shape_.getD L.channel_axis_.toNat 0 = L.channels_ ∧
      bs.all (fun b => decide (b0.shape_ = b.shape_)) = true ∧
      L.num_spatial_axes_.toNat ≤ (hook (hookInput L b0)).length ∧
      top.isEmpty = false ∧
      L' = reshapeState hook L b0 ∧
      top' = top.map (fun t => t.Reshape (reshapeTopShape hook L b0)) := by
  cases bottom with
  | nil => rw [Reshape_nil] at h; cases h
  | cons b0 bs =>
    rw [Reshape_eq] at h
    refine ⟨b0, bs, rfl, ?_⟩
    by_cases h1 : (b0.shape_.length : Int) = L.channel_axis_ + 1 + L.num_spatial_axes_
    swap
    · rw [if_neg h1] at h; cases h
    rw [if_pos h1] at h
    by_cases h2 : 0 ≤ L.channel_axis_ ∧ L.channel_axis_ < b0.shape_.length
    swap
    · rw [if_neg h2] at h; cases h
    rw [if_pos h2] at h
    by_cases h3 : b0.shape_.getD L.channel_axis_.toNat 0 = L.channels_
    swap
    · rw [if_neg h3] at h; cases h
    rw [if_pos h3] at h
    by_cases h4 : bs.all (fun b => decide (b0.shape_ = b.shape_)) = true
    swap
    · rw [if_neg h4] at h; cases h
    rw [if_pos h4] at h
    by_cases h5 : L.num_spatial_axes_.toNat ≤ (hook (hookInput L b0)).length
    swap
    · rw [if_neg h5] at h; cases h
    rw [if_pos h5] at h
    by_cases h6 : top.isEmpty = true
    · rw [if_pos h6] at h; cases h
    rw [if_neg h6] at h
    injection h with h
    injection h with hL ht
    exact ⟨h1, h2, h3, h4, h5, by simpa using h6, hL.symm, ht.symm⟩

/-- The accessor `Blob::shape(index)` succeeds exactly on an axis of the blob. -/
theorem Blob.shape_eq_ok_iff {β : Type} (b : Blob β) (index v : Int) :
    b.shape index = .ok v ↔
      (0 ≤ index ∧ index < b.shape_.length) ∧ b.shape_.getD index.toNat 0 = v := by
  unfold Blob.shape
  by_cases h0 : 0 ≤ index
  · rw [if_pos h0]
    by_cases h1 : index.toNat < b.shape_.length
    · rw [vecAt_of_lt _ _ h1]
      have h2 : index < b.shape_.length := by omega
      simp [List.getD_eq_getElem?_getD, List.getElem?_eq_getElem h1, h0, h2]
    · rw [vecAt_of_ge _ _ (by omega)]
      have h2 : ¬ index < b.shape_.length := by omega
      simp [h2]
  · rw [if_neg h0]
    simp [h0]

/-- C5: on a layer produced by `LayerSetUp`, `Reshape` fails with `ShapeMismatch`
whenever the channel-axis extent of the first input is not the configured input
channel count, or the rank of the first input is not `2 + numSpatialDims`. -/
theorem C5_shape_mismatch [One α] (hook : BaseConvolutionLayer α → List Int)
    (L0 L1 : BaseConvolutionLayer α) (bottom0 top0 : List (Blob α))
    (hset : LayerSetUp L0 bottom0 top0 = .ok L1)
    (b0 : Blob α) (bs top : List (Blob α))
    (hbad : b0.shape L1.channel_axis_ ≠ .ok L1.channels_ ∨
      b0.num_axes ≠ 2 + L1.num_spatial_axes_) :
    Reshape hook L1 (b0 :: bs) top = .error .ShapeMismatch := by
  obtain ⟨hk, hs, ho, c0, c, w0, kd, hb, hc, hw, hkd, rfl⟩ := LayerSetUp_ok hset
  rw [Reshape_eq]
  have hca : (setUpState L0 c kd).channel_axis_ = 1 := rfl
  have hn : (setUpState L0 c kd).num_spatial_axes_ = 2 := rfl
  have hchan : (setUpState L0 c kd).channels_ = c := rfl
  have hbad1 : b0.shape 1 ≠ .ok c ∨ b0.num_axes ≠ 2 + 2 := hbad
  rw [hca, hn, hchan]
  by_cases h1 : (b0.shape_.length : Int) = 1 + 1 + 2
  swap
  · rw [if_neg h1]
  rw [if_pos h1]
  have h2 : (0 : Int) ≤ 1 ∧ (1 : Int) < b0.shape_.length := by omega
  rw [if_pos h2]
  have h3 : ¬ b0.shape_.getD (1 : Int).toNat 0 = c := by
    intro h3
    rcases hbad1 with hbad | hbad
    · exact hbad ((Blob.shape_eq_ok_iff b0 1 c).mpr ⟨h2, h3⟩)
    · apply hbad
      unfold Blob.num_axes
      omega
  rw [if_neg h3]

/-- The witness of C5: three configured channels, an input with channel extent 4. -/
theorem C5_shape_mismatch_witness :
    Reshape compute_output_shape
        (setUpState (freshLayer ⟨3, 1, 1, 1, 2⟩ [zeroBlob [2, 3, 3, 3]] false) 3 27)
        [zeroBlob [1, 4, 8, 8]] [zeroBlob []] = .error .ShapeMismatch :=
  C5_shape_mismatch compute_output_shape
    (freshLayer ⟨3, 1, 1, 1, 2⟩ [zeroBlob [2, 3, 3, 3]] false) _
    [zeroBlob [1, 3, 8, 8]] [] rfl (zeroBlob [1, 4, 8, 8]) [] [zeroBlob []]
    (Or.inl (by simp [Blob.shape, vecAt, zeroBlob, setUpState]))

/-- C6: with two or more inputs whose first input passes the rank check and the
channel check, `Reshape` fails with `BatchInconsistency` exactly when the shape of
some input differs from the shape of the first input. -/
theorem C6_batch_inconsistency [One α] (hook : BaseConvolutionLayer α → List Int)
    (L : BaseConvolutionLayer α) (b0 b1 : Blob α) (bs top : List (Blob α))
    (hrank : b0.num_axes = L.channel_axis_ + 1 + L.num_spatial_axes_)
    (hchan : b0.shape L.channel_axis_ = .ok L.channels_) :
    Reshape hook L (b0 :: b1 :: bs) top = .error .BatchInconsistency ↔
      ∃ b ∈ b0 :: b1 :: bs, b.shape_ ≠ b0.shape_ := by
  rw [Reshape_eq]
  obtain ⟨h2, h3⟩ := (Blob.shape_eq_ok_iff b0 _ _).mp hchan
  have h1 : (b0.shape_.length : Int) = L.channel_axis_ + 1 + L.num_spatial_axes_ := hrank
  rw [if_pos h1, if_pos h2, if_pos h3]
  by_cases h4 : (b1 :: bs).all (fun b => decide (b0.shape_ = b.shape_)) = true
  · rw [if_pos h4]
    have hno : ¬ ∃ b ∈ b0 :: b1 :: bs, b.shape_ ≠ b0.shape_ := by
      rintro ⟨b, hb, hne⟩
      rw [List.all_eq_true] at h4
      rcases List.mem_cons.mp hb with rfl | hb
      · exact hne rfl
      · have h5 : b0.shape_ = b.shape_ := by simpa using h4 b hb
        exact hne h5.symm
    constructor
    · intro h
      exfalso
      by_cases h5 : L.num_spatial_axes_.toNat ≤ (hook (hookInput L b0)).length
      · rw [if_pos h5] at h
        by_cases h6 : top.isEmpty = true
        · rw [if_pos h6] at h; cases h
        · rw [if_neg h6] at h; cases h
      · rw [if_neg h5] at h; cases h
    · intro h
      exact absurd h hno
  · rw [if_neg h4]
    constructor
    · intro _
      rw [List.all_eq_true] at h4
      push_neg at h4
      obtain ⟨b, hb, hne⟩ := h4
      refine ⟨b, List.mem_cons_of_mem _ hb, fun h => hne ?_⟩
      simpa using h.symm
    · intro _
      rfl

/-- The witness of C6: inputs of shapes `[1,3,8,8]` and `[1,3,8,9]`. -/
theorem C6_batch_inconsistency_witness :
    Reshape compute_output_shape
        (setUpState (freshLayer ⟨3, 1, 1, 1, 2⟩ [zeroBlob [2, 3, 3, 3]] false) 3 27)
        [zeroBlob [1, 3, 8, 8], zeroBlob [1, 3, 8, 9]] [zeroBlob []]
      = .error .BatchInconsistency :=
  Iff.mpr (C6_batch_inconsistency compute_output_shape
    (setUpState (freshLayer ⟨3, 1, 1, 1, 2⟩ [zeroBlob [2, 3, 3, 3]] false) 3 27)
    (zeroBlob [1, 3, 8, 8]) (zeroBlob [1, 3, 8, 9]) [] [zeroBlob []] (by decide) rfl)
    (Exists.intro (zeroBlob [1, 3, 8, 9])
      (And.intro (List.mem_cons_of_mem _ (List.mem_cons_self _ _)) (by decide)))

/-- The function `Reshape` succeeds when the checks of lines 95-104 pass, the hook yields a value
for every spatial axis and there is an output blob. -/
theorem Reshape_succeeds [One α] (hook : BaseConvolutionLayer α → List Int)
    (L : BaseConvolutionLayer α) (b0 : Blob α) (bs top : List (Blob α))
    (hrank : b0.num_axes = L.channel_axis_ + 1 + L.num_spatial_axes_)
    (hchan : b0.shape L.channel_axis_ = .ok L.channels_)
    (hsame : ∀ b ∈ bs, b.shape_ = b0.shape_)
    (hhook : L.num_spatial_axes_.toNat ≤ (hook (hookInput L b0)).length)
    (htop : top ≠ []) :
    Reshape hook L (b0 :: bs) top =
      .ok (reshapeState hook L b0, top.map fun t => t.Reshape (reshapeTopShape hook L b0)) := by
  rw [Reshape_eq]
  obtain ⟨h2, h3⟩ := (Blob.shape_eq_ok_iff b0 _ _).mp hchan
  have h1 : (b0.shape_.length : Int) = L.channel_axis_ + 1 + L.num_spatial_axes_ := hrank
  have h4 : bs.all (fun b => decide (b0.shape_ = b.shape_)) = true := by
    rw [List.all_eq_true]
    intro b hb
    simpa using (hsame b hb).symm
  have h6 : ¬ top.isEmpty = true := by
    cases top with
    | nil => exact absurd rfl htop
    | cons t ts => simp
  rw [if_pos h1, if_pos h2, if_pos h3, if_pos h4, if_pos hhook, if_neg h6]

/-- C7, the claim as stated fails: kernel 3, stride 1, pad 0, dilation 1 on a 2x2
input; the standard hook yields 0 on both axes, and `Reshape` succeeds with the
output spatial shape `[0, 0]`. -/
theorem C7_counterexample :
    LayerSetUp (freshLayer ⟨3, 1, 0, 1, 1⟩ [zeroBlob [1, 1, 3, 3]] false)
        [zeroBlob [1, 1, 2, 2]] [zeroBlob []]
      = .ok (setUpState (freshLayer ⟨3, 1, 0, 1, 1⟩ [zeroBlob [1, 1, 3, 3]] false) 1 9) ∧
    compute_output_shape
        (hookInput (setUpState (freshLayer ⟨3, 1, 0, 1, 1⟩ [zeroBlob [1, 1, 3, 3]] false) 1 9)
          (zeroBlob [1, 1, 2, 2])) = [0, 0] ∧
    Reshape compute_output_shape
        (setUpState (freshLayer ⟨3, 1, 0, 1, 1⟩ [zeroBlob [1, 1, 3, 3]] false) 1 9)
        [zeroBlob [1, 1, 2, 2]] [zeroBlob []]
      = .ok (reshapeState compute_output_shape
          (setUpState (freshLayer ⟨3, 1, 0, 1, 1⟩ [zeroBlob [1, 1, 3, 3]] false) 1 9)
          (zeroBlob [1, 1, 2, 2]), [zeroBlob [1, 1, 0, 0]]) ∧
    (reshapeState compute_output_shape
        (setUpState (freshLayer ⟨3, 1, 0, 1, 1⟩ [zeroBlob [1, 1, 3, 3]] false) 1 9)
        (zeroBlob [1, 1, 2, 2])).output_shape_ = [0, 0] := by
  refine ⟨rfl, by decide, ?_, by decide⟩
  rw [Reshape_succeeds compute_output_shape
    (setUpState (freshLayer ⟨3, 1, 0, 1, 1⟩ [zeroBlob [1, 1, 3, 3]] false) 1 9)
    (zeroBlob [1, 1, 2, 2]) [] [zeroBlob []] (by decide) rfl (by simp) (by decide) (by simp)]
  rfl

/-- C7 as amended: `Reshape` stores what the output-shape hook yields without
comparing it with 1.  Whenever `Reshape` succeeds, the output spatial shape is
exactly what the hook yielded on the first input, so every axis of it is at
least 1 exactly when every value the hook yielded is.  (Nothing is said about
whether `Reshape` succeeds when the hook yields a value below 1, beyond the case
exhibited by the counterexample.) -/
theorem C7_hook_result_unchecked [One α] (hook : BaseConvolutionLayer α → List Int)
    (L L' : BaseConvolutionLayer α) (b0 : Blob α) (bs top top' : List (Blob α))
    (h : Reshape hook L (b0 :: bs) top = .ok (L', top')) :
    L'.output_shape_ = hook (hookInput L b0) ∧
    ((∀ x ∈ L'.output_shape_, 1 ≤ x) ↔ (∀ x ∈ hook (hookInput L b0), 1 ≤ x)) := by
  obtain ⟨b0', bs', hb, _, _, _, _, _, _, hL, _⟩ := Reshape_ok h
  injection hb with hb1 hb2
  subst hb1
  have hout : L'.output_shape_ = hook (hookInput L b0) := by rw [hL]; rfl
  exact ⟨hout, by rw [hout]⟩

/-- The witness of C7 as amended: kernel 3, stride 1, pad 1 on a 4x4 input; the
hook yields `[4, 4]` and `Reshape` succeeds with that output spatial shape. -/
theorem C7_hook_result_unchecked_witness :
    Reshape compute_output_shape
        (setUpState (freshLayer ⟨3, 1, 1, 1, 1⟩ [zeroBlob [1, 1, 3, 3]] false) 1 9)
        [zeroBlob [1, 1, 4, 4]] [zeroBlob []]
      = .ok (reshapeState compute_output_shape
          (setUpState (freshLayer ⟨3, 1, 1, 1, 1⟩ [zeroBlob [1, 1, 3, 3]] false) 1 9)
          (zeroBlob [1, 1, 4, 4]),
        [zeroBlob []].map fun t => t.Reshape (reshapeTopShape compute_output_shape
          (setUpState (freshLayer ⟨3, 1, 1, 1, 1⟩ [zeroBlob [1, 1, 3, 3]] false) 1 9)
          (zeroBlob [1, 1, 4, 4]))) ∧
    compute_output_shape (hookInput
        (setUpState (freshLayer ⟨3, 1, 1, 1, 1⟩ [zeroBlob [1, 1, 3, 3]] false) 1 9)
        (zeroBlob [1, 1, 4, 4])) = [4, 4] ∧
    (reshapeState compute_output_shape
        (setUpState (freshLayer ⟨3, 1, 1, 1, 1⟩ [zeroBlob [1, 1, 3, 3]] false) 1 9)
        (zeroBlob [1, 1, 4, 4])).output_shape_
      = compute_output_shape (hookInput
          (setUpState (freshLayer ⟨3, 1, 1, 1, 1⟩ [zeroBlob [1, 1, 3, 3]] false) 1 9)
          (zeroBlob [1, 1, 4, 4])) :=
  ⟨Reshape_succeeds compute_output_shape
      (setUpState (freshLayer ⟨3, 1, 1, 1, 1⟩ [zeroBlob [1, 1, 3, 3]] false) 1 9)
      (zeroBlob [1, 1, 4, 4]) [] [zeroBlob []] (by decide) rfl (by simp) (by decide)
      (by simp),
    by decide,
    (C7_hook_result_unchecked compute_output_shape
      (setUpState (freshLayer ⟨3, 1, 1, 1, 1⟩ [zeroBlob [1, 1, 3, 3]] false) 1 9) _
      (zeroBlob [1, 1, 4, 4]) [] [zeroBlob []] _
      (Reshape_succeeds compute_output_shape
        (setUpState (freshLayer ⟨3, 1, 1, 1, 1⟩ [zeroBlob [1, 1, 3, 3]] false) 1 9)
        (zeroBlob [1, 1, 4, 4]) [] [zeroBlob []] (by decide) rfl (by simp) (by decide)
        (by simp))).1⟩

/-- The standard hook yields one value per spatial axis. -/
theorem compute_output_shape_length (L : BaseConvolutionLayer α) :
    (compute_output_shape L).length = L.num_spatial_axes_.toNat := by
  simp [compute_output_shape]

/-- C10: after a successful `Reshape`, `output_shape_` is what the hook returned,
`conv_out_spatial_dim_` is the product of its entries on the spatial axes (of all
its entries when the hook returned one entry per spatial axis),
`col_offset_ = kernel_dim_ * conv_out_spatial_dim_`,
`output_offset_ = conv_out_channels_ * conv_out_spatial_dim_` and
`out_spatial_dim_ = conv_out_spatial_dim_`. -/
theorem C10_derived_offsets [One α] (hook : BaseConvolutionLayer α → List Int)
    (L L' : BaseConvolutionLayer α) (bottom top top' : List (Blob α))
    (h : Reshape hook L bottom top = .ok (L', top')) :
    (∃ b0 bs, bottom = b0 :: bs ∧ L'.output_shape_ = hook (hookInput L b0)) ∧
    L'.conv_out_spatial_dim_ = (L'.output_shape_.take L'.num_spatial_axes_.toNat).prod ∧
    (L'.output_shape_.length = L'.num_spatial_axes_.toNat →
      L'.conv_out_spatial_dim_ = L'.output_shape_.prod) ∧
    L'.col_offset_ = L'.kernel_dim_ * L'.conv_out_spatial_dim_ ∧
    L'.output_offset_ = L'.conv_out_channels_ * L'.conv_out_spatial_dim_ ∧
    L'.out_spatial_dim_ = L'.conv_out_spatial_dim_ := by
  obtain ⟨b0, bs, hb, _, _, _, _, _, _, hL, _⟩ := Reshape_ok h
  subst hL
  refine ⟨⟨b0, bs, hb, rfl⟩, rfl, ?_, rfl, rfl, rfl⟩
  intro hlen
  have h1 : (reshapeState hook L b0).conv_out_spatial_dim_
      = ((reshapeState hook L b0).output_shape_.take
          (reshapeState hook L b0).num_spatial_axes_.toNat).prod := rfl
  rw [h1, ← hlen, List.take_length]

/-- The witness of C10: two output channels, kernel 3, stride 1, pad 1 on a 4x4 input. -/
theorem C10_derived_offsets_witness :
    (reshapeState compute_output_shape
        (setUpState (freshLayer ⟨3, 1, 1, 1, 2⟩ [zeroBlob [2, 1, 3, 3]] false) 1 9)
        (zeroBlob [1, 1, 4, 4])).conv_out_spatial_dim_
      = (reshapeState compute_output_shape
        (setUpState (freshLayer ⟨3, 1, 1, 1, 2⟩ [zeroBlob [2, 1, 3, 3]] false) 1 9)
        (zeroBlob [1, 1, 4, 4])).output_shape_.prod :=
  (C10_derived_offsets compute_output_shape
    (setUpState (freshLayer ⟨3, 1, 1, 1, 2⟩ [zeroBlob [2, 1, 3, 3]] false) 1 9) _
    [zeroBlob [1, 1, 4, 4]] [zeroBlob []] _
    (Reshape_succeeds compute_output_shape
      (setUpState (freshLayer ⟨3, 1, 1, 1, 2⟩ [zeroBlob [2, 1, 3, 3]] false) 1 9)
      (zeroBlob [1, 1, 4, 4]) [] [zeroBlob []] (by decide) rfl (by simp) (by decide)
      (by simp))).2.2.1 (by decide)

/-! ## The forward pass -/

theorem sumTo_eq_sum [AddCommMonoid α] (f : Nat → α) (K : Nat) :
    sumTo f K = ∑ k in Finset.range K, f k := by
  induction K with
  | zero => simp [sumTo]
  | succ k ih => rw [sumTo, ih, Finset.sum_range_succ]

theorem index_lt_of_lt {M N o j : Nat} (ho : o < M) (hj : j < N) : o * N + j < M * N := by
  have h1 : (o + 1) * N ≤ M * N := Nat.mul_le_mul_right N ho
  have h2 : (o + 1) * N = o * N + N := by ring
  omega

theorem index_div {N o j : Nat} (hj : j < N) : (o * N + j) / N = o := by
  have hN : 0 < N := by omega
  rw [Nat.add_comm, Nat.add_mul_div_right _ _ hN, Nat.div_eq_of_lt hj, Nat.zero_add]

theorem index_mod {N o j : Nat} (hj : j < N) : (o * N + j) % N = j := by
  rw [Nat.add_comm, Nat.add_mul_mod_self_right, Nat.mod_eq_of_lt hj]

/-- An entry of the `M × N` block after the multiply primitive. -/
theorem caffe_cpu_gemm_entry [Semiring α] (M N K : Int) (alpha beta : α)
    (A B C : Nat → α) (o j : Nat) (ho : o < M.toNat) (hj : j < N.toNat) :
    caffe_cpu_gemm M N K alpha A B beta C (o * N.toNat + j) =
      alpha * (∑ k in Finset.range K.toNat, A (o * K.toNat + k) * B (k * N.toNat + j))
        + beta * C (o * N.toNat + j) := by
  unfold caffe_cpu_gemm
  simp only [if_pos (index_lt_of_lt ho hj), index_div hj, index_mod hj, sumTo_eq_sum]

/-- An entry outside the `M × N` block is left as it was. -/
theorem caffe_cpu_gemm_outside [Semiring α] (M N K : Int) (alpha beta : α)
    (A B C : Nat → α) (idx : Nat) (h : M.toNat * N.toNat ≤ idx) :
    caffe_cpu_gemm M N K alpha A B beta C idx = C idx := by
  unfold caffe_cpu_gemm
  rw [if_neg (by omega)]

/-- C2: whatever the output buffer held before, after `forward_cpu_gemm` the entry
`(o, j)` of the output is `∑ k, W[o,k] * C[k,j]`, where `W` is the weights buffer
read as an `outputChannels × kernelVolume` matrix and `C` is the column matrix the
call uses (the input itself when `is_1x1_`, else the expansion buffer: as it was
when `skip_im2col`, else freshly written by the patch expansion), read as a
`kernelVolume × outputSpatialVolume` matrix; two runs that differ only in the
prior output contents give the same entry and leave the same layer state. -/
theorem C2_forward_is_product [Semiring α] (L : BaseConvolutionLayer α)
    (input weights output output' : Nat → α) (skip_im2col : Bool) (o j : Nat)
    (ho : o < L.conv_out_channels_.toNat) (hj : j < L.conv_out_spatial_dim_.toNat) :
    (forward_cpu_gemm L input weights output skip_im2col).2
        (o * L.conv_out_spatial_dim_.toNat + j)
      = ∑ k in Finset.range L.kernel_dim_.toNat,
          weights (o * L.kernel_dim_.toNat + k) *
            (if L.is_1x1_ then input
              else if skip_im2col then L.col_buffer_.data_
              else conv_im2col_cpu L input L.col_buffer_.data_)
              (k * L.conv_out_spatial_dim_.toNat + j) ∧
    (forward_cpu_gemm L input weights output' skip_im2col).2
        (o * L.conv_out_spatial_dim_.toNat + j)
      = (forward_cpu_gemm L input weights output skip_im2col).2
        (o * L.conv_out_spatial_dim_.toNat + j) ∧
    (forward_cpu_gemm L input weights output' skip_im2col).1
      = (forward_cpu_gemm L input weights output skip_im2col).1 := by
  cases h1 : L.is_1x1_ <;> cases skip_im2col <;>
    simp [forward_cpu_gemm, h1, caffe_cpu_gemm_entry _ _ _ _ _ _ _ _ _ _ ho hj]

/-- The witness of C2: a 1x1 layer with two input channels, a 1x2 input and two
output channels; `W = [[1,2],[3,4]]`, `C = [[10,20],[30,40]]`, entry `(1, 0)`. -/
theorem C2_forward_is_product_witness :
    (forward_cpu_gemm
        (reshapeState compute_output_shape
          (setUpState (freshLayer ⟨1, 1, 0, 1, 2⟩ [zeroBlob [2, 2, 1, 1]] false) 2 2)
          (zeroBlob [1, 2, 1, 2]))
        (fun i => 10 * ((i : Int) + 1)) (fun i => (i : Int) + 1) (fun _ => 7) false).2 2
      = 3 * 10 + 4 * 30 :=
  (C2_forward_is_product
    (reshapeState compute_output_shape
      (setUpState (freshLayer ⟨1, 1, 0, 1, 2⟩ [zeroBlob [2, 2, 1, 1]] false) 2 2)
      (zeroBlob [1, 2, 1, 2]))
    (fun i => 10 * ((i : Int) + 1)) (fun i => (i : Int) + 1) (fun _ => 7) (fun _ => 0)
    false 1 0 (by decide) (by decide)).1.trans (by decide)

/-- The function `forward_cpu_gemm` changes no member of the layer but `col_buffer_`. -/
theorem forward_cpu_gemm_frame [Semiring α] (L : BaseConvolutionLayer α)
    (input weights output : Nat → α) (skip_im2col : Bool) :
    ∃ cb : Blob α, (forward_cpu_gemm L input weights output skip_im2col).1
      = { L with col_buffer_ := cb } := by
  unfold forward_cpu_gemm
  cases skip_im2col <;> split
  · exact ⟨⟨L.col_buffer_.shape_, conv_im2col_cpu L input L.col_buffer_.data_⟩, rfl⟩
  · exact ⟨L.col_buffer_, rfl⟩
  · exact ⟨L.col_buffer_, rfl⟩
  · exact ⟨L.col_buffer_, rfl⟩

/-- C3: on a layer with the bias enabled, after a successful `Reshape` the bias
multiplier has shape `[conv_out_spatial_dim_]` and every entry 1, and running
`forward_cpu_gemm` and then `forward_cpu_bias` on the same output buffer leaves
`output[o, j] = forwardOutput[o, j] + bias[o]`; the forward output itself carries
no bias, whatever the bias switch and the bias multiplier are. -/
theorem C3_bias_broadcast [Semiring α] (hook : BaseConvolutionLayer α → List Int)
    (L L2 : BaseConvolutionLayer α) (bottom top top2 : List (Blob α))
    (hbias : L.bias_term_ = true)
    (hr : Reshape hook L bottom top = .ok (L2, top2))
    (input weights bias output : Nat → α) (skip_im2col : Bool) (o j : Nat)
    (ho : o < L2.num_output_.toNat) (hj : j < L2.out_spatial_dim_.toNat) :
    L2.bias_multiplier_.shape_ = [L2.conv_out_spatial_dim_] ∧
    L2.out_spatial_dim_ = L2.conv_out_spatial_dim_ ∧
    (∀ i, i < L2.conv_out_spatial_dim_.toNat → L2.bias_multiplier_.data_ i = 1) ∧
    forward_cpu_bias (forward_cpu_gemm L2 input weights output skip_im2col).1
        (forward_cpu_gemm L2 input weights output skip_im2col).2 bias
        (o * L2.out_spatial_dim_.toNat + j)
      = (forward_cpu_gemm L2 input weights output skip_im2col).2
          (o * L2.out_spatial_dim_.toNat + j) + bias o ∧
    (∀ (bt : Bool) (bm : Blob α),
      (forward_cpu_gemm { L2 with bias_term_ := bt, bias_multiplier_ := bm }
          input weights output skip_im2col).2
        = (forward_cpu_gemm L2 input weights output skip_im2col).2) := by
  obtain ⟨b0, bs, hb, _, _, _, _, _, _, hL, _⟩ := Reshape_ok hr
  have hshape : L2.bias_multiplier_.shape_ = [L2.conv_out_spatial_dim_] := by
    rw [hL]
    simp [reshapeState, hbias]
  have hosd : L2.out_spatial_dim_ = L2.conv_out_spatial_dim_ := by
    rw [hL]
    rfl
  have hones : ∀ i, i < L2.conv_out_spatial_dim_.toNat → L2.bias_multiplier_.data_ i = 1 := by
    intro i hi
    rw [hL] at hi ⊢
    simp only [reshapeState, hbias, if_true, caffe_set] at hi ⊢
    rw [if_pos hi]
  refine ⟨hshape, hosd, hones, ?_, ?_⟩
  · obtain ⟨cb, hcb⟩ := forward_cpu_gemm_frame L2 input weights output skip_im2col
    unfold forward_cpu_bias
    rw [hcb]
    simp only []
    rw [caffe_cpu_gemm_entry _ _ _ _ _ _ _ _ o j ho hj]
    have h1 : ((1 : Int)).toNat = 1 := rfl
    rw [h1, Finset.sum_range_one]
    simp only [Nat.zero_mul, Nat.zero_add, Nat.mul_one, Nat.add_zero]
    rw [hones j (by rw [← hosd]; exact hj)]
    simp [add_comm]
  · intro bt bm
    cases h1 : L2.is_1x1_ <;> cases skip_im2col <;>
      simp [forward_cpu_gemm, h1, conv_im2col_cpu]

/-- The witness of C3: three output channels, kernel 3, pad 1 on a 2x2 input with
the bias enabled; entry `(2, 1)`. -/
theorem C3_bias_broadcast_witness :
    forward_cpu_bias
        (forward_cpu_gemm
          (reshapeState compute_output_shape
            (setUpState (freshLayer ⟨3, 1, 1, 1, 3⟩ [zeroBlob [3, 1, 3, 3]] true) 1 9)
            (zeroBlob [1, 1, 2, 2]))
          (fun i => (i : Int) + 1) (fun i => 2 * (i : Int)) (fun _ => 5) false).1
        (forward_cpu_gemm
          (reshapeState compute_output_shape
            (setUpState (freshLayer ⟨3, 1, 1, 1, 3⟩ [zeroBlob [3, 1, 3, 3]] true) 1 9)
            (zeroBlob [1, 1, 2, 2]))
          (fun i => (i : Int) + 1) (fun i => 2 * (i : Int)) (fun _ => 5) false).2
        (fun o => 100 * (o : Int)) 9
      = (forward_cpu_gemm
          (reshapeState compute_output_shape
            (setUpState (freshLayer ⟨3, 1, 1, 1, 3⟩ [zeroBlob [3, 1, 3, 3]] true) 1 9)
            (zeroBlob [1, 1, 2, 2]))
          (fun i => (i : Int) + 1) (fun i => 2 * (i : Int)) (fun _ => 5) false).2 9
        + 200 :=
  (C3_bias_broadcast compute_output_shape
    (setUpState (freshLayer ⟨3, 1, 1, 1, 3⟩ [zeroBlob [3, 1, 3, 3]] true) 1 9) _
    [zeroBlob [1, 1, 2, 2]] [zeroBlob []] _ rfl
    (Reshape_succeeds compute_output_shape
      (setUpState (freshLayer ⟨3, 1, 1, 1, 3⟩ [zeroBlob [3, 1, 3, 3]] true) 1 9)
      (zeroBlob [1, 1, 2, 2]) [] [zeroBlob []] (by decide) rfl (by simp) (by decide)
      (by simp))
    (fun i => (i : Int) + 1) (fun i => 2 * (i : Int)) (fun o => 100 * (o : Int)) (fun _ => 5)
    false 2 1 (by decide) (by decide)).2.2.2.1

/-! ## The degenerate case -/

/-- With a 1x1 kernel, unit stride and zero pad on two spatial axes, and the output
spatial shape equal to the input spatial shape, the patch expansion copies the
input sample. -/
theorem im2col_1x1 [Zero α] (data col : Nat → α) (C H W : Nat)
    (stride pad dilation : Nat → Int)
    (hs0 : stride 0 = 1) (hs1 : stride 1 = 1) (hp0 : pad 0 = 0) (hp1 : pad 1 = 0)
    (idx : Nat) (h : idx < C * (H * W)) :
    im2col data C [(H : Int), (W : Int)] [1, 1] [H, W] stride pad dilation col idx
      = data idx := by
  have hHW : 0 < H * W := by
    rcases Nat.eq_zero_or_pos (H * W) with h0 | h0
    · rw [h0] at h; omega
    · exact h0
  have hW : 0 < W := Nat.pos_of_mul_pos_left hHW
  have hj : idx % (H * W) < H * W := Nat.mod_lt _ hHW
  have hq : idx % (H * W) % W < W := Nat.mod_lt _ hW
  have hp : idx % (H * W) / W < H := by
    rw [Nat.div_lt_iff_lt_mul hW]
    exact hj
  have hsplit : idx % (H * W) / W * W + idx % (H * W) % W = idx % (H * W) :=
    Nat.div_add_mod' _ _
  have hsplit2 : idx / (H * W) * (H * W) + idx % (H * W) = idx := Nat.div_add_mod' _ _
  unfold im2col
  have hlt : idx < C * [1, 1].prod * [H, W].prod := by
    simpa using h
  rw [if_pos hlt]
  simp only [List.prod_cons, List.prod_nil, mul_one, Nat.div_one, Nat.mod_one, unravel,
    List.length_cons, List.length_nil, List.range, List.range.loop, List.map_cons, List.map_nil,
    List.all_cons, List.all_nil, List.getD_cons_zero, List.getD_cons_succ, hs0, hs1, hp0, hp1,
    ravel, Nat.zero_div, Nat.cast_zero, zero_mul, add_zero, sub_zero, Bool.and_true]
  have hc1 : (0 : Int) ≤ ((idx % (H * W) / W : Nat) : Int) := Int.natCast_nonneg _
  have hc2 : ((idx % (H * W) / W : Nat) : Int) < (H : Int) := by exact_mod_cast hp
  have hc3 : (0 : Int) ≤ ((idx % (H * W) % W : Nat) : Int) := Int.natCast_nonneg _
  have hc4 : ((idx % (H * W) % W : Nat) : Int) < (W : Int) := by exact_mod_cast hq
  simp only [hc1, hc2, hc3, hc4, decide_True, Bool.and_self, if_true]
  congr 1
  have : ((idx / (H * W) : Nat) : Int) * ((H : Int) * (W : Int)) +
      (((idx % (H * W) / W : Nat) : Int) * (W : Int) + ((idx % (H * W) % W : Nat) : Int))
      = ((idx : Nat) : Int) := by
    have e1 : (((idx % (H * W) / W * W + idx % (H * W) % W : Nat)) : Int)
        = ((idx % (H * W) : Nat) : Int) := by rw [hsplit]
    have e2 : (((idx / (H * W) * (H * W) + idx % (H * W) : Nat)) : Int) = ((idx : Nat) : Int) := by
      rw [hsplit2]
    simp only [Nat.cast_add, Nat.cast_mul] at e1 e2
    linarith
  rw [this]
  simp

theorem setUpState_is_1x1_iff (L : BaseConvolutionLayer α) (c kd : Int) :
    (setUpState L c kd).is_1x1_ = true ↔
      L.layer_param_.convParam.kernel_size = 1 ∧ L.layer_param_.convParam.stride = 1 ∧
        L.layer_param_.convParam.pad = 0 := by
  simp only [setUpState]
  rw [is_1x1_loop_eq_all, all_axes_1x1_iff]
  simp only [store]
  constructor
  · intro H
    simpa using H 0 (by omega)
  · intro H i hi
    have hi' : i = 0 ∨ i = 1 := by omega
    rcases hi' with rfl | rfl <;> simp [H.1, H.2.1, H.2.2]

theorem sumTo_congr [Zero α] [Add α] (f g : Nat → α) (K : Nat)
    (h : ∀ k, k < K → f k = g k) : sumTo f K = sumTo g K := by
  induction K with
  | zero => rfl
  | succ k ih =>
    rw [sumTo, sumTo, ih (fun i hi => h i (by omega)), h k (by omega)]

/-- On a layer with two spatial axes, a 1x1 kernel, unit stride, zero pad and the
output spatial shape equal to the input spatial shape `H × W`, the layer's patch
expansion copies the `C * H * W` entries of the input sample. -/
theorem conv_im2col_cpu_of_1x1 [Zero α] (L : BaseConvolutionLayer α) (C H W : Nat) (kd : Int)
    (hn : L.num_spatial_axes_ = 2) (hc : L.conv_in_channels_ = C)
    (hin1 : L.conv_input_shape_.data_ 1 = H) (hin2 : L.conv_input_shape_.data_ 2 = W)
    (hk0 : L.kernel_shape_.data_ 0 = 1) (hk1 : L.kernel_shape_.data_ 1 = 1)
    (hs0 : L.stride_.data_ 0 = 1) (hs1 : L.stride_.data_ 1 = 1)
    (hp0 : L.pad_.data_ 0 = 0) (hp1 : L.pad_.data_ 1 = 0)
    (hcol : L.col_buffer_shape_ = [kd, (H : Int), (W : Int)])
    (data col : Nat → α) (idx : Nat) (h : idx < C * (H * W)) :
    conv_im2col_cpu L data col idx = data idx := by
  unfold conv_im2col_cpu
  have h2 : (2 : Int).toNat = 2 := rfl
  simp only [hn, h2, hc, Int.toNat_ofNat, List.range, List.range.loop, List.map_cons,
    List.map_nil, hin1, hin2, hk0, hk1, hcol, List.getD_cons_succ, List.getD_cons_zero,
    zero_add]
  have h1 : (1 : Int).toNat = 1 := rfl
  rw [h1]
  exact im2col_1x1 data col C H W _ _ _ hs0 hs1 hp0 hp1 idx h

/-- The multiply primitive reads its right operand only inside the `K × N` block. -/
theorem caffe_cpu_gemm_congr [Semiring α] (M N K : Int) (alpha beta : α)
    (A B B' C : Nat → α)
    (h : ∀ k j, k < K.toNat → j < N.toNat → B (k * N.toNat + j) = B' (k * N.toNat + j)) :
    caffe_cpu_gemm M N K alpha A B beta C = caffe_cpu_gemm M N K alpha A B' beta C := by
  funext idx
  unfold caffe_cpu_gemm
  by_cases hidx : idx < M.toNat * N.toNat
  · rw [if_pos hidx, if_pos hidx]
    have hN : 0 < N.toNat := by
      rcases Nat.eq_zero_or_pos N.toNat with h0 | h0
      · rw [h0] at hidx; omega
      · exact h0
    have hsum : sumTo (fun k => A (idx / N.toNat * K.toNat + k) * B (k * N.toNat + idx % N.toNat))
        K.toNat
        = sumTo (fun k => A (idx / N.toNat * K.toNat + k) * B' (k * N.toNat + idx % N.toNat))
        K.toNat := by
      apply sumTo_congr
      intro k hk
      show A (idx / N.toNat * K.toNat + k) * B (k * N.toNat + idx % N.toNat)
        = A (idx / N.toNat * K.toNat + k) * B' (k * N.toNat + idx % N.toNat)
      rw [h k (idx % N.toNat) hk (Nat.mod_lt _ hN)]
    simp only [hsum]
  · rw [if_neg hidx, if_neg hidx]

/-- C4 as amended: take a layer set up by `LayerSetUp` whose weight blob has the
shape `weight_shape` computed there (which `LayerSetUp` does not check), and
reshaped by `Reshape` with the standard output-shape hook on an input of
non-negative extents.  When `is_1x1_` is true, the output of `forward_cpu_gemm`
(the weights multiplied by the input itself) is the output of running the patch
expansion into the expansion buffer and multiplying the weights by that buffer,
for every input, weights, prior output and skip flag; and the patch expansion
copies the input sample entry by entry. -/
theorem C4_bypass_equals_expansion [Semiring α]
    (L0 L1 L2 : BaseConvolutionLayer α) (bottom0 top0 : List (Blob α))
    (b0 : Blob α) (bs top top2 : List (Blob α)) (w0 : Blob α)
    (hset : LayerSetUp L0 bottom0 top0 = .ok L1)
    (hw0 : vecAt L0.blobs_ 0 = .ok w0)
    (hwshape : w0.shape_ = weight_shape L1.conv_out_channels_ L1.conv_in_channels_
      L1.num_spatial_axes_ L1.kernel_shape_.data_)
    (hresh : Reshape compute_output_shape L1 (b0 :: bs) top = .ok (L2, top2))
    (hpos : ∀ x ∈ b0.shape_, 0 ≤ x)
    (h1x1 : L2.is_1x1_ = true)
    (input weights output : Nat → α) (skip_im2col : Bool) :
    (forward_cpu_gemm L2 input weights output skip_im2col).2
      = forward_by_expansion L2 input weights output ∧
    (∀ (col : Nat → α) (idx : Nat), idx < L2.bottom_dim_.toNat →
      conv_im2col_cpu L2 input col idx = input idx) := by
  obtain ⟨hk, hs, ho, c0, c, w0', kd, hb, hc, hw, hkd, rfl⟩ := LayerSetUp_ok hset
  rw [hw0] at hw
  injection hw with hw
  subst hw
  obtain ⟨b0', bs', hb', hrank, hca, hchan, _, _, _, hL2, _⟩ := Reshape_ok hresh
  injection hb' with hb1 hb2
  subst hb1
  have h1x1' : (setUpState L0 c kd).is_1x1_ = true := by
    rw [hL2] at h1x1
    exact h1x1
  obtain ⟨hk1, hs1, hp1⟩ := (setUpState_is_1x1_iff L0 c kd).mp h1x1'
  -- the input has four axes
  have hlen : b0.shape_.length = 4 := by
    have : (b0.shape_.length : Int) = 1 + 1 + 2 := hrank
    omega
  rcases hsh : b0.shape_ with _ | ⟨n0, _ | ⟨c1, _ | ⟨H, _ | ⟨W, _ | ⟨x, t⟩⟩⟩⟩⟩ <;>
    rw [hsh] at hlen <;> simp at hlen
  have hc1 : c1 = c := by
    have : b0.shape_.getD (1 : Int).toNat 0 = c := hchan
    rw [hsh] at this
    simpa using this
  subst hc1
  have hH0 : 0 ≤ H := hpos H (by rw [hsh]; simp)
  have hW0 : 0 ≤ W := hpos W (by rw [hsh]; simp)
  have hC0 : 0 ≤ c1 := hpos c1 (by rw [hsh]; simp)
  obtain ⟨Hn, rfl⟩ := Int.eq_ofNat_of_zero_le hH0
  obtain ⟨Wn, rfl⟩ := Int.eq_ofNat_of_zero_le hW0
  obtain ⟨Cn, rfl⟩ := Int.eq_ofNat_of_zero_le hC0
  -- the weight blob is [out, in, 1, 1]
  have hkd' : kd = (Cn : Int) := by
    have hws : w0.shape_ = [L0.layer_param_.convParam.output, (Cn : Int), 1, 1] := by
      rw [hwshape]
      simp [weight_shape, setUpState, loop, store, hk1]
    have := Blob.countFrom_eq w0 1 (by rw [hws]; simp)
    rw [hws] at this
    have h2 : w0.countFrom ((1 : Nat) : Int) = w0.countFrom 1 := rfl
    rw [h2, hkd] at this
    injection this with this
    rw [this]
    simp
  subst hkd'
  -- the hook yields the input spatial shape
  have hhook : compute_output_shape (hookInput (setUpState L0 (Cn : Int) (Cn : Int)) b0)
      = [(Hn : Int), (Wn : Int)] := by
    simp [compute_output_shape, hookInput, setUpState, store, hsh, hk1, hs1, hp1,
      List.range, List.range.loop]
  subst hL2
  have hcopy : ∀ (col : Nat → α) (idx : Nat), idx < Cn * (Hn * Wn) →
      conv_im2col_cpu (reshapeState compute_output_shape
        (setUpState L0 (Cn : Int) (Cn : Int)) b0) input col idx = input idx := by
    intro col idx hidx
    have hcolshape : (reshapeState compute_output_shape
        (setUpState L0 (Cn : Int) (Cn : Int)) b0).col_buffer_shape_
          = (Cn : Int) :: (compute_output_shape
              (hookInput (setUpState L0 (Cn : Int) (Cn : Int)) b0)).take 2 := rfl
    rw [hhook] at hcolshape
    exact conv_im2col_cpu_of_1x1 _ Cn Hn Wn (Cn : Int) rfl rfl
      (by simp [reshapeState, setUpState, hsh])
      (by simp [reshapeState, setUpState, hsh])
      (by simp [reshapeState, setUpState, store, hk1])
      (by simp [reshapeState, setUpState, store, hk1])
      (by simp [reshapeState, setUpState, store, hs1])
      (by simp [reshapeState, setUpState, store, hs1])
      (by simp [reshapeState, setUpState, store, hp1])
      (by simp [reshapeState, setUpState, store, hp1])
      hcolshape input col idx hidx
  have hN : (reshapeState compute_output_shape
      (setUpState L0 (Cn : Int) (Cn : Int)) b0).conv_out_spatial_dim_.toNat = Hn * Wn := by
    have h : (reshapeState compute_output_shape
        (setUpState L0 (Cn : Int) (Cn : Int)) b0).conv_out_spatial_dim_
          = ((compute_output_shape
              (hookInput (setUpState L0 (Cn : Int) (Cn : Int)) b0)).take 2).prod := rfl
    rw [h, hhook]
    simp only [List.take, List.prod_cons, List.prod_nil, mul_one]
    rw [← Nat.cast_mul, Int.toNat_ofNat]
  have hK : (reshapeState compute_output_shape
      (setUpState L0 (Cn : Int) (Cn : Int)) b0).kernel_dim_.toNat = Cn := by
    have h : (reshapeState compute_output_shape
        (setUpState L0 (Cn : Int) (Cn : Int)) b0).kernel_dim_ = (Cn : Int) := rfl
    rw [h, Int.toNat_ofNat]
  have hB : (reshapeState compute_output_shape
      (setUpState L0 (Cn : Int) (Cn : Int)) b0).bottom_dim_.toNat = Cn * (Hn * Wn) := by
    have h : (reshapeState compute_output_shape
        (setUpState L0 (Cn : Int) (Cn : Int)) b0).bottom_dim_
          = (b0.shape_.drop 1).prod := rfl
    rw [h, hsh]
    simp only [List.drop, List.prod_cons, List.prod_nil, mul_one]
    rw [← Nat.cast_mul, ← Nat.cast_mul, Int.toNat_ofNat]
  refine ⟨?_, ?_⟩
  · unfold forward_cpu_gemm forward_by_expansion
    simp only [h1x1, Bool.not_true, Bool.false_eq_true, if_false]
    apply caffe_cpu_gemm_congr
    intro k j hk hj
    rw [hK] at hk
    rw [hN] at hj ⊢
    rw [hcopy _ _ (index_lt_of_lt hk hj)]
  · intro col idx hidx
    rw [hB] at hidx
    exact hcopy col idx hidx

/-- The witness of C4: two input channels, a 1x2 input, two output channels, a 1x1
kernel with stride 1 and pad 0. -/
theorem C4_bypass_equals_expansion_witness :
    (forward_cpu_gemm
        (reshapeState compute_output_shape
          (setUpState (freshLayer ⟨1, 1, 0, 1, 2⟩ [zeroBlob [2, 2, 1, 1]] false) 2 2)
          (zeroBlob [1, 2, 1, 2]))
        (fun i => 10 * ((i : Int) + 1)) (fun i => (i : Int) + 1) (fun _ => 7) false).2
      = forward_by_expansion
        (reshapeState compute_output_shape
          (setUpState (freshLayer ⟨1, 1, 0, 1, 2⟩ [zeroBlob [2, 2, 1, 1]] false) 2 2)
          (zeroBlob [1, 2, 1, 2]))
        (fun i => 10 * ((i : Int) + 1)) (fun i => (i : Int) + 1) (fun _ => 7) :=
  (C4_bypass_equals_expansion
    (freshLayer ⟨1, 1, 0, 1, 2⟩ [zeroBlob [2, 2, 1, 1]] false) _ _
    [zeroBlob [1, 2, 1, 2]] [zeroBlob []] (zeroBlob [1, 2, 1, 2]) [] [zeroBlob []] _
    (zeroBlob [2, 2, 1, 1]) rfl rfl (by decide)
    (Reshape_succeeds compute_output_shape
      (setUpState (freshLayer ⟨1, 1, 0, 1, 2⟩ [zeroBlob [2, 2, 1, 1]] false) 2 2)
      (zeroBlob [1, 2, 1, 2]) [] [zeroBlob []] (by decide) rfl (by simp) (by decide)
      (by simp))
    (by decide) (by decide)
    (fun i => 10 * ((i : Int) + 1)) (fun i => (i : Int) + 1) (fun _ => 7) false).1

/-- C4, the claim as stated fails: one input channel, a 1x1 kernel with stride 1
and pad 0, and a weight blob of shape `[2, 5, 1, 1]`, which `LayerSetUp` accepts;
`kernel_dim_` is 5, so the bypass reads five rows of two entries from the input
(`col_offset_` is 10, one sample has `bottom_dim_` = 2 entries), while the patch
expansion writes one row.  The input blob has five samples, so every entry read
lies within its ten entries.  With the input holding 5 everywhere and the weights
1 everywhere, entry 0 of the output is 25 through the bypass and 5 through the
expansion. -/
theorem C4_counterexample :
    LayerSetUp (freshLayer ⟨1, 1, 0, 1, 2⟩ [zeroBlob [2, 5, 1, 1]] false)
        [zeroBlob [5, 1, 1, 2]] [zeroBlob []]
      = .ok (setUpState (freshLayer ⟨1, 1, 0, 1, 2⟩ [zeroBlob [2, 5, 1, 1]] false) 1 5) ∧
    Reshape compute_output_shape
        (setUpState (freshLayer ⟨1, 1, 0, 1, 2⟩ [zeroBlob [2, 5, 1, 1]] false) 1 5)
        [zeroBlob [5, 1, 1, 2]] [zeroBlob []]
      = .ok (reshapeState compute_output_shape
          (setUpState (freshLayer ⟨1, 1, 0, 1, 2⟩ [zeroBlob [2, 5, 1, 1]] false) 1 5)
          (zeroBlob [5, 1, 1, 2]),
        [zeroBlob []].map fun t => t.Reshape (reshapeTopShape compute_output_shape
          (setUpState (freshLayer ⟨1, 1, 0, 1, 2⟩ [zeroBlob [2, 5, 1, 1]] false) 1 5)
          (zeroBlob [5, 1, 1, 2]))) ∧
    (reshapeState compute_output_shape
        (setUpState (freshLayer ⟨1, 1, 0, 1, 2⟩ [zeroBlob [2, 5, 1, 1]] false) 1 5)
        (zeroBlob [5, 1, 1, 2])).is_1x1_ = true ∧
    (reshapeState compute_output_shape
        (setUpState (freshLayer ⟨1, 1, 0, 1, 2⟩ [zeroBlob [2, 5, 1, 1]] false) 1 5)
        (zeroBlob [5, 1, 1, 2])).col_offset_ = 10 ∧
    (reshapeState compute_output_shape
        (setUpState (freshLayer ⟨1, 1, 0, 1, 2⟩ [zeroBlob [2, 5, 1, 1]] false) 1 5)
        (zeroBlob [5, 1, 1, 2])).bottom_dim_ = 2 ∧
    (forward_cpu_gemm
        (reshapeState compute_output_shape
          (setUpState (freshLayer ⟨1, 1, 0, 1, 2⟩ [zeroBlob [2, 5, 1, 1]] false) 1 5)
          (zeroBlob [5, 1, 1, 2]))
        (fun _ => (5 : Int)) (fun _ => 1) (fun _ => 0) false).2 0 = 25 ∧
    forward_by_expansion
        (reshapeState compute_output_shape
          (setUpState (freshLayer ⟨1, 1, 0, 1, 2⟩ [zeroBlob [2, 5, 1, 1]] false) 1 5)
          (zeroBlob [5, 1, 1, 2]))
        (fun _ => (5 : Int)) (fun _ => 1) (fun _ => 0) 0 = 5 := by
  refine ⟨rfl, ?_, rfl, by decide, by decide, by decide, by decide⟩
  exact Reshape_succeeds compute_output_shape
    (setUpState (freshLayer ⟨1, 1, 0, 1, 2⟩ [zeroBlob [2, 5, 1, 1]] false) 1 5)
    (zeroBlob [5, 1, 1, 2]) [] [zeroBlob []] (by decide) rfl (by simp) (by decide)
    (by simp)

/-! ## Idempotence of Reshape -/

/-- The standard hook reads only the configuration vectors and the input shape. -/
theorem compute_output_shape_congr (A B : BaseConvolutionLayer α)
    (h1 : A.channel_axis_ = B.channel_axis_) (h2 : A.num_spatial_axes_ = B.num_spatial_axes_)
    (h3 : A.kernel_shape_ = B.kernel_shape_) (h4 : A.stride_ = B.stride_)
    (h5 : A.pad_ = B.pad_) (h6 : A.dilation_ = B.dilation_)
    (h7 : A.bottom_shape_ = B.bottom_shape_) :
    compute_output_shape A = compute_output_shape B := by
  unfold compute_output_shape
  rw [h1, h2, h3, h4, h5, h6, h7]

/-- Filling a buffer that is already filled changes nothing. -/
theorem caffe_set_idem (N : Int) (a : α) (Y : Nat → α) :
    caffe_set N a (caffe_set N a Y) = caffe_set N a Y := by
  funext i
  unfold caffe_set
  by_cases h : i < N.toNat
  · rw [if_pos h, if_pos h]
  · rw [if_neg h, if_neg h]

/-- A layer whose derived members already hold what `Reshape` would store is left
as it is by `reshapeState`. -/
theorem reshapeState_eq_self [One α] (hook : BaseConvolutionLayer α → List Int)
    (L1 : BaseConvolutionLayer α) (b0 : Blob α)
    (h1 : (L1.bottom_shape_.take L1.channel_axis_.toNat).prod = L1.num_)
    (h2 : b0.shape_ = L1.bottom_shape_)
    (h3 : hook (hookInput L1 b0) = L1.output_shape_)
    (h4 : (L1.output_shape_.take L1.num_spatial_axes_.toNat).prod = L1.conv_out_spatial_dim_)
    (h5 : L1.kernel_dim_ * L1.conv_out_spatial_dim_ = L1.col_offset_)
    (h6 : L1.conv_out_channels_ * L1.conv_out_spatial_dim_ = L1.output_offset_)
    (h7 : ({ shape_ := [L1.num_spatial_axes_ + 1]
             data_ := fun i =>
              if i < L1.num_spatial_axes_.toNat + 1
              then L1.bottom_shape_.getD (L1.channel_axis_.toNat + i) 0
              else L1.conv_input_shape_.data_ i } : Blob Int) = L1.conv_input_shape_)
    (h8 : L1.kernel_dim_ :: L1.output_shape_.take L1.num_spatial_axes_.toNat
      = L1.col_buffer_shape_)
    (h9 : L1.col_buffer_.Reshape L1.col_buffer_shape_ = L1.col_buffer_)
    (h10 : (L1.bottom_shape_.drop L1.channel_axis_.toNat).prod = L1.bottom_dim_)
    (h11 : L1.num_output_ * L1.conv_out_spatial_dim_ = L1.top_dim_)
    (h12 : L1.conv_in_channels_ * L1.conv_out_spatial_dim_ = L1.num_kernels_im2col_)
    (h13 : L1.bottom_dim_ = L1.num_kernels_col2im_)
    (h14 : L1.conv_out_spatial_dim_ = L1.out_spatial_dim_)
    (h15 : (if L1.bias_term_ then
          ({ shape_ := [L1.conv_out_spatial_dim_]
             data_ := caffe_set L1.conv_out_spatial_dim_ 1 L1.bias_multiplier_.data_ } : Blob α)
        else L1.bias_multiplier_) = L1.bias_multiplier_) :
    reshapeState hook L1 b0 = L1 := by
  unfold reshapeState
  simp only [h3, h2, h1, h4, h5, h6, h7, h8, h9, h10, h11, h12, h15]
  cases L1
  dsimp only at h13 h14
  subst h13 h14
  rfl

/-- The state `Reshape` produces is a fixed point of `reshapeState` when the hook
yields the same output shape again. -/
theorem reshapeState_idem [One α] (hook : BaseConvolutionLayer α → List Int)
    (L : BaseConvolutionLayer α) (b0 : Blob α)
    (hk : hook (hookInput (reshapeState hook L b0) b0) = hook (hookInput L b0)) :
    reshapeState hook (reshapeState hook L b0) b0 = reshapeState hook L b0 := by
  apply reshapeState_eq_self
  · rfl
  · rfl
  · exact hk
  · rfl
  · rfl
  · rfl
  · show (_ : Blob Int) = _
    simp only [reshapeState, Blob.mk.injEq, true_and]
    funext i
    by_cases hi : i < L.num_spatial_axes_.toNat + 1
    · simp only [if_pos hi]
    · simp only [if_neg hi]
  · rfl
  · rfl
  · rfl
  · rfl
  · rfl
  · rfl
  · rfl
  · cases hb : L.bias_term_
    · simp [reshapeState, hb]
    · simp [reshapeState, hb, caffe_set_idem]

/-- C11: when the hook's result depends only on the configuration vectors and the
input shape (a deterministic hook in the sense of its contract) and `Reshape`
succeeds, running `Reshape` again on the resulting layer, with the same inputs and
the reshaped outputs, succeeds and returns the very same layer and outputs: every
derived value, the output shapes and the bias multiplier are unchanged. -/
theorem C11_reshape_idempotent [One α] (hook : BaseConvolutionLayer α → List Int)
    (L L1 : BaseConvolutionLayer α) (bottom top top1 : List (Blob α))
    (hdet : ∀ A B : BaseConvolutionLayer α,
      A.channel_axis_ = B.channel_axis_ → A.num_spatial_axes_ = B.num_spatial_axes_ →
      A.kernel_shape_ = B.kernel_shape_ → A.stride_ = B.stride_ → A.pad_ = B.pad_ →
      A.dilation_ = B.dilation_ → A.bottom_shape_ = B.bottom_shape_ → hook A = hook B)
    (h : Reshape hook L bottom top = .ok (L1, top1)) :
    Reshape hook L1 bottom top1 = .ok (L1, top1) := by
  obtain ⟨b0, bs, hb, hrank, hca, hchan, hall, hout, htop, hL, ht⟩ := Reshape_ok h
  subst hb hL
  have hk : hook (hookInput (reshapeState hook L b0) b0) = hook (hookInput L b0) :=
    hdet _ _ rfl rfl rfl rfl rfl rfl rfl
  have hts : reshapeTopShape hook (reshapeState hook L b0) b0 = reshapeTopShape hook L b0 := by
    unfold reshapeTopShape
    rw [hk]
    rfl
  have htop1 : top1 ≠ [] := by
    rw [ht]
    cases top with
    | nil => simp at htop
    | cons t ts => simp
  have hsame : ∀ b ∈ bs, b.shape_ = b0.shape_ := by
    intro b hbm
    rw [List.all_eq_true] at hall
    have := hall b hbm
    simp only [decide_eq_true_eq] at this
    exact this.symm
  rw [Reshape_succeeds hook (reshapeState hook L b0) b0 bs top1 hrank
    ((Blob.shape_eq_ok_iff b0 _ _).mpr ⟨hca, hchan⟩) hsame (by rw [hk]; exact hout) htop1]
  rw [reshapeState_idem hook L b0 hk, hts, ht, List.map_map]
  rfl

/-- The witness of C11: kernel 3, stride 1, pad 1 on a 4x4 input, bias enabled,
the standard hook. -/
theorem C11_reshape_idempotent_witness :
    Reshape compute_output_shape
        (reshapeState compute_output_shape
          (setUpState (freshLayer ⟨3, 1, 1, 1, 2⟩ [zeroBlob [2, 1, 3, 3]] true) 1 9)
          (zeroBlob [1, 1, 4, 4]))
        [zeroBlob [1, 1, 4, 4]]
        ([zeroBlob []].map fun t => t.Reshape (reshapeTopShape compute_output_shape
          (setUpState (freshLayer ⟨3, 1, 1, 1, 2⟩ [zeroBlob [2, 1, 3, 3]] true) 1 9)
          (zeroBlob [1, 1, 4, 4])))
      = .ok (reshapeState compute_output_shape
          (setUpState (freshLayer ⟨3, 1, 1, 1, 2⟩ [zeroBlob [2, 1, 3, 3]] true) 1 9)
          (zeroBlob [1, 1, 4, 4]),
        [zeroBlob []].map fun t => t.Reshape (reshapeTopShape compute_output_shape
          (setUpState (freshLayer ⟨3, 1, 1, 1, 2⟩ [zeroBlob [2, 1, 3, 3]] true) 1 9)
          (zeroBlob [1, 1, 4, 4]))) :=
  C11_reshape_idempotent compute_output_shape
    (setUpState (freshLayer ⟨3, 1, 1, 1, 2⟩ [zeroBlob [2, 1, 3, 3]] true) 1 9) _
    [zeroBlob [1, 1, 4, 4]] [zeroBlob []] _ compute_output_shape_congr
    (Reshape_succeeds compute_output_shape
      (setUpState (freshLayer ⟨3, 1, 1, 1, 2⟩ [zeroBlob [2, 1, 3, 3]] true) 1 9)
      (zeroBlob [1, 1, 4, 4]) [] [zeroBlob []] (by decide) rfl (by simp) (by decide)
      (by simp))

/-- C12: after a successful `LayerSetUp`, on every spatial axis the kernel shape
entry is the configured kernel size, the stride entry the configured stride, the
pad entry the configured pad and the dilation entry the configured dilation. -/
theorem C12_scalar_broadcast (L L' : BaseConvolutionLayer α) (bottom top : List (Blob α))
    (h : LayerSetUp L bottom top = .ok L') (i : Nat) (hi : (i : Int) < L'.num_spatial_axes_) :
    L'.kernel_shape_.data_ i = L.layer_param_.convParam.kernel_size ∧
    L'.stride_.data_ i = L.layer_param_.convParam.stride ∧
    L'.pad_.data_ i = L.layer_param_.convParam.pad ∧
    L'.dilation_.data_ i = L.layer_param_.convParam.dilation := by
  obtain ⟨hk, hs, ho, b0, c, w0, kd, hb, hc, hw, hkd, rfl⟩ := LayerSetUp_ok h
  have hi2 : (i : Int) < 2 := hi
  have hi' : i = 0 ∨ i = 1 := by omega
  rcases hi' with rfl | rfl <;> simp [setUpState, store]

/-- The witness of C12: kernel 5, stride 2, pad 3, dilation 4, second axis. -/
theorem C12_scalar_broadcast_witness :
    (setUpState (freshLayer ⟨5, 2, 3, 4, 1⟩ [zeroBlob [1, 1, 5, 5]] false) 1 25
        ).kernel_shape_.data_ 1 = 5 ∧
    (setUpState (freshLayer ⟨5, 2, 3, 4, 1⟩ [zeroBlob [1, 1, 5, 5]] false) 1 25
        ).stride_.data_ 1 = 2 ∧
    (setUpState (freshLayer ⟨5, 2, 3, 4, 1⟩ [zeroBlob [1, 1, 5, 5]] false) 1 25
        ).pad_.data_ 1 = 3 ∧
    (setUpState (freshLayer ⟨5, 2, 3, 4, 1⟩ [zeroBlob [1, 1, 5, 5]] false) 1 25
        ).dilation_.data_ 1 = 4 :=
  C12_scalar_broadcast (freshLayer ⟨5, 2, 3, 4, 1⟩ [zeroBlob [1, 1, 5, 5]] false) _
    [zeroBlob [1, 1, 32, 32]] [] rfl 1 (by decide)

/-! ## The expansion buffer and the two back ends -/

/-- C13: `forward_cpu_gemm` never changes the shape of the expansion buffer; when
`is_1x1_` is true or `skip_im2col` is true it returns the layer as it was, so the
contents of the buffer are unchanged; the contents can differ only when `is_1x1_`
is false and `skip_im2col` is false, and then they are what the patch expansion
wrote; with `skip_im2col` true and `is_1x1_` false the product is taken against
the contents the buffer already had. -/
theorem C13_expansion_buffer_frame [Semiring α] (L : BaseConvolutionLayer α)
    (input weights output : Nat → α) (skip_im2col : Bool) :
    (forward_cpu_gemm L input weights output skip_im2col).1.col_buffer_.shape_
      = L.col_buffer_.shape_ ∧
    (L.is_1x1_ = true ∨ skip_im2col = true →
      (forward_cpu_gemm L input weights output skip_im2col).1 = L) ∧
    ((forward_cpu_gemm L input weights output skip_im2col).1.col_buffer_.data_
        ≠ L.col_buffer_.data_ → L.is_1x1_ = false ∧ skip_im2col = false) ∧
    (L.is_1x1_ = false → skip_im2col = false →
      (forward_cpu_gemm L input weights output skip_im2col).1.col_buffer_.data_
        = conv_im2col_cpu L input L.col_buffer_.data_) ∧
    (L.is_1x1_ = false → skip_im2col = true →
      (forward_cpu_gemm L input weights output skip_im2col).2
        = caffe_cpu_gemm L.conv_out_channels_ L.conv_out_spatial_dim_ L.kernel_dim_
            1 weights L.col_buffer_.data_ 0 output) := by
  cases h1 : L.is_1x1_ <;> cases skip_im2col <;> simp [forward_cpu_gemm, h1]

/-- The witness of C13: a 3x3 layer (so `is_1x1_` is false) run with `skip_im2col`
true returns the layer unchanged. -/
theorem C13_expansion_buffer_frame_witness :
    (forward_cpu_gemm
        (reshapeState compute_output_shape
          (setUpState (freshLayer ⟨3, 1, 1, 1, 2⟩ [zeroBlob [2, 1, 3, 3]] false) 1 9)
          (zeroBlob [1, 1, 4, 4]))
        (fun i => (i : Int) + 1) (fun i => 2 * (i : Int)) (fun _ => 5) true).1
      = reshapeState compute_output_shape
          (setUpState (freshLayer ⟨3, 1, 1, 1, 2⟩ [zeroBlob [2, 1, 3, 3]] false) 1 9)
          (zeroBlob [1, 1, 4, 4]) :=
  (C13_expansion_buffer_frame
    (reshapeState compute_output_shape
      (setUpState (freshLayer ⟨3, 1, 1, 1, 2⟩ [zeroBlob [2, 1, 3, 3]] false) 1 9)
      (zeroBlob [1, 1, 4, 4]))
    (fun i => (i : Int) + 1) (fun i => 2 * (i : Int)) (fun _ => 5) true).2.1 (Or.inr rfl)

/-- C14: when the accelerator multiply and patch expansion compute the same
functions as the general-purpose ones, `forward_gpu_gemm` returns the same output
(and the same layer) as `forward_cpu_gemm`, and `forward_gpu_bias` the same output
as `forward_cpu_bias`, for every layer state, input, weights, bias, prior output
and skip flag. -/
theorem C14_backend_equivalence [Semiring α]
    (caffe_gpu_gemm : Int → Int → Int → α → (Nat → α) → (Nat → α) → α → (Nat → α) → Nat → α)
    (conv_im2col_gpu : BaseConvolutionLayer α → (Nat → α) → (Nat → α) → Nat → α)
    (hgemm : ∀ M N K alpha A B beta C,
      caffe_gpu_gemm M N K alpha A B beta C = caffe_cpu_gemm M N K alpha A B beta C)
    (him2col : ∀ L data col, conv_im2col_gpu L data col = conv_im2col_cpu L data col)
    (L : BaseConvolutionLayer α) (input weights output bias : Nat → α) (skip_im2col : Bool) :
    forward_gpu_gemm caffe_gpu_gemm conv_im2col_gpu L input weights output skip_im2col
      = forward_cpu_gemm L input weights output skip_im2col ∧
    forward_gpu_bias caffe_gpu_gemm L output bias = forward_cpu_bias L output bias := by
  constructor
  · unfold forward_gpu_gemm forward_cpu_gemm
    simp only [hgemm, him2col]
  · unfold forward_gpu_bias forward_cpu_bias
    rw [hgemm]

/-- The witness of C14: the accelerator primitives instantiated by the
general-purpose ones, on a 3x3 layer. -/
theorem C14_backend_equivalence_witness :
    forward_gpu_gemm caffe_cpu_gemm conv_im2col_cpu
        (reshapeState compute_output_shape
          (setUpState (freshLayer ⟨3, 1, 1, 1, 2⟩ [zeroBlob [2, 1, 3, 3]] true) 1 9)
          (zeroBlob [1, 1, 4, 4]))
        (fun i => (i : Int) + 1) (fun i => 2 * (i : Int)) (fun _ => 5) false
      = forward_cpu_gemm
        (reshapeState compute_output_shape
          (setUpState (freshLayer ⟨3, 1, 1, 1, 2⟩ [zeroBlob [2, 1, 3, 3]] true) 1 9)
          (zeroBlob [1, 1, 4, 4]))
        (fun i => (i : Int) + 1) (fun i => 2 * (i : Int)) (fun _ => 5) false :=
  (C14_backend_equivalence caffe_cpu_gemm conv_im2col_cpu
    (fun _ _ _ _ _ _ _ _ => rfl) (fun _ _ _ => rfl)
    (reshapeState compute_output_shape
      (setUpState (freshLayer ⟨3, 1, 1, 1, 2⟩ [zeroBlob [2, 1, 3, 3]] true) 1 9)
      (zeroBlob [1, 1, 4, 4]))
    (fun i => (i : Int) + 1) (fun i => 2 * (i : Int)) (fun _ => 5) (fun o => (o : Int))
    false).1

/-! ## Claims that the code does not meet as stated -/

/-- C15, the claim as stated fails: on a layer that `LayerSetUp` has set up and on
which no `Reshape` has run, `forward_cpu_gemm` raises no error; it returns the
layer and the output buffer (here with entry 0 as it was, the output spatial
volume still being 0). -/
theorem C15_counterexample :
    LayerSetUp (freshLayer ⟨1, 1, 0, 1, 2⟩ [zeroBlob [2, 3, 1, 1]] false)
        [zeroBlob [1, 3, 4, 4]] []
      = .ok (setUpState (freshLayer ⟨1, 1, 0, 1, 2⟩ [zeroBlob [2, 3, 1, 1]] false) 3 3) ∧
    (forward_cpu_gemm
        (setUpState (freshLayer ⟨1, 1, 0, 1, 2⟩ [zeroBlob [2, 3, 1, 1]] false) 3 3)
        (fun i => (i : Int) + 1) (fun i => 2 * (i : Int)) (fun _ => 5) false).1
      = setUpState (freshLayer ⟨1, 1, 0, 1, 2⟩ [zeroBlob [2, 3, 1, 1]] false) 3 3 ∧
    (forward_cpu_gemm
        (setUpState (freshLayer ⟨1, 1, 0, 1, 2⟩ [zeroBlob [2, 3, 1, 1]] false) 3 3)
        (fun i => (i : Int) + 1) (fun i => 2 * (i : Int)) (fun _ => 5) false).2 0 = 5 := by
  refine ⟨rfl, rfl, ?_⟩
  have h : (forward_cpu_gemm
      (setUpState (freshLayer ⟨1, 1, 0, 1, 2⟩ [zeroBlob [2, 3, 1, 1]] false) 3 3)
      (fun i => (i : Int) + 1) (fun i => 2 * (i : Int)) (fun _ => 5) false).2
      = caffe_cpu_gemm 2 0 3 1 (fun i => 2 * (i : Int)) (fun i => (i : Int) + 1) 0
          (fun _ => 5) := rfl
  rw [h, caffe_cpu_gemm_outside _ _ _ _ _ _ _ _ 0 (by simp)]

/-- C15 as amended: `forward_cpu_gemm` makes no check that a `Reshape` has
succeeded.  On a layer configured with kernel 1, stride 1 and pad 0 that
`LayerSetUp` has set up and on which no `Reshape` has run, the member
`conv_out_spatial_dim_` holding 0 as it did before `LayerSetUp`, the layer has
`is_1x1_` set and the call raises no error: it returns with the layer and every
entry of the output buffer as they were.  (Nothing is said about a layer that is
not 1x1, on which the call writes the expansion buffer that only `Reshape`
sizes.) -/
theorem C15_forward_before_reshape [Semiring α]
    (L0 L1 : BaseConvolutionLayer α) (bottom top : List (Blob α))
    (hset : LayerSetUp L0 bottom top = .ok L1)
    (hk : L0.layer_param_.convParam.kernel_size = 1)
    (hs : L0.layer_param_.convParam.stride = 1)
    (hp : L0.layer_param_.convParam.pad = 0)
    (hz : L0.conv_out_spatial_dim_ = 0)
    (input weights output : Nat → α) (skip_im2col : Bool) :
    L1.is_1x1_ = true ∧ L1.conv_out_spatial_dim_ = 0 ∧
    forward_cpu_gemm L1 input weights output skip_im2col = (L1, output) := by
  obtain ⟨_, _, _, b0, c, w0, kd, _, _, _, _, rfl⟩ := LayerSetUp_ok hset
  have h1 : (setUpState L0 c kd).is_1x1_ = true :=
    (setUpState_is_1x1_iff L0 c kd).mpr ⟨hk, hs, hp⟩
  have h0 : (setUpState L0 c kd).conv_out_spatial_dim_ = 0 := hz
  refine ⟨h1, h0, ?_⟩
  have hfwd : forward_cpu_gemm (setUpState L0 c kd) input weights output skip_im2col
      = (setUpState L0 c kd,
          caffe_cpu_gemm (setUpState L0 c kd).conv_out_channels_
            (setUpState L0 c kd).conv_out_spatial_dim_ (setUpState L0 c kd).kernel_dim_
            1 weights input 0 output) := by
    unfold forward_cpu_gemm
    simp only [h1, Bool.not_true, Bool.false_eq_true, if_false]
  have hout : caffe_cpu_gemm (setUpState L0 c kd).conv_out_channels_ 0
      (setUpState L0 c kd).kernel_dim_ 1 weights input 0 output = output :=
    funext fun idx => caffe_cpu_gemm_outside _ _ _ _ _ _ _ _ idx (by simp)
  rw [hfwd, h0, hout]

/-- The witness of C15 as amended: three output channels, two input channels, a
1x1 kernel with stride 1 and pad 0, set up on a 5x5 input and not reshaped. -/
theorem C15_forward_before_reshape_witness :
    forward_cpu_gemm
        (setUpState (freshLayer ⟨1, 1, 0, 1, 3⟩ [zeroBlob [3, 2, 1, 1]] false) 2 2)
        (fun i => (i : Int) + 1) (fun i => 2 * (i : Int)) (fun i => 3 * (i : Int)) true
      = (setUpState (freshLayer ⟨1, 1, 0, 1, 3⟩ [zeroBlob [3, 2, 1, 1]] false) 2 2,
          fun (i : Nat) => 3 * (i : Int)) :=
  (C15_forward_before_reshape
    (freshLayer ⟨1, 1, 0, 1, 3⟩ [zeroBlob [3, 2, 1, 1]] false) _
    [zeroBlob [1, 2, 5, 5]] [] rfl rfl rfl rfl rfl
    (fun i => (i : Int) + 1) (fun i => 2 * (i : Int)) (fun i => 3 * (i : Int)) true).2.2

/-- C16, the claim as stated fails: one input channel, kernel 3x3, and a weight
blob of shape `[2, 5, 3, 3]`; `LayerSetUp` succeeds and `kernel_dim_` is 45, not
`1 * 3 * 3`. -/
theorem C16_counterexample :
    LayerSetUp (freshLayer ⟨3, 1, 1, 1, 2⟩ [zeroBlob [2, 5, 3, 3]] false)
        [zeroBlob [1, 1, 4, 4]] []
      = .ok (setUpState (freshLayer ⟨3, 1, 1, 1, 2⟩ [zeroBlob [2, 5, 3, 3]] false) 1 45) ∧
    (setUpState (freshLayer ⟨3, 1, 1, 1, 2⟩ [zeroBlob [2, 5, 3, 3]] false) 1 45).kernel_dim_
      = 45 ∧
    (setUpState (freshLayer ⟨3, 1, 1, 1, 2⟩ [zeroBlob [2, 5, 3, 3]] false) 1 45
        ).conv_in_channels_ *
      ((setUpState (freshLayer ⟨3, 1, 1, 1, 2⟩ [zeroBlob [2, 5, 3, 3]] false) 1 45
          ).kernel_shape_.data_ 0 *
        (setUpState (freshLayer ⟨3, 1, 1, 1, 2⟩ [zeroBlob [2, 5, 3, 3]] false) 1 45
          ).kernel_shape_.data_ 1) = 9 :=
  ⟨rfl, rfl, by decide⟩

/-- C16 as amended: after a successful `LayerSetUp`, `kernel_dim_` is
`blobs_[0]->count(1)`, the product of the extents of the weight blob after the
first, and `weight_offset_ = conv_out_channels_ * kernel_dim_`; when the weight
blob has the shape `weight_shape` of lines 81-86, `kernel_dim_` is the input
channel count multiplied by the product of the kernel dimensions. -/
theorem C16_kernel_dim (L L' : BaseConvolutionLayer α)
    (bottom top : List (Blob α)) (h : LayerSetUp L bottom top = .ok L') :
    (∃ w0, vecAt L.blobs_ 0 = .ok w0 ∧ L'.kernel_dim_ = (w0.shape_.drop 1).prod) ∧
    L'.weight_offset_ = L'.conv_out_channels_ * L'.kernel_dim_ ∧
    (∀ w0, vecAt L.blobs_ 0 = .ok w0 →
      w0.shape_ = weight_shape L'.conv_out_channels_ L'.conv_in_channels_
        L'.num_spatial_axes_ L'.kernel_shape_.data_ →
      L'.kernel_dim_ = L'.conv_in_channels_ *
        ((List.range L'.num_spatial_axes_.toNat).map L'.kernel_shape_.data_).prod) := by
  obtain ⟨hk, hs, ho, b0, c, w0, kd, hb, hc, hw, hkd, rfl⟩ := LayerSetUp_ok h
  have hlen : 1 ≤ w0.shape_.length := by
    unfold Blob.countFrom Blob.count Blob.num_axes at hkd
    by_cases hcond : (0 : Int) ≤ 1 ∧ (1 : Int) ≤ w0.shape_.length ∧
        (w0.shape_.length : Int) ≤ w0.shape_.length
    · omega
    · rw [if_neg hcond] at hkd
      cases hkd
  have hkd2 : kd = (w0.shape_.drop 1).prod := by
    have h1 := Blob.countFrom_eq w0 1 hlen
    have h2 : w0.countFrom ((1 : Nat) : Int) = w0.countFrom 1 := rfl
    rw [h2, hkd] at h1
    injection h1
  refine ⟨⟨w0, hw, hkd2⟩, rfl, ?_⟩
  intro w1 hw1 hshape
  rw [hw] at hw1
  injection hw1 with hw1
  subst hw1
  have hkd3 : (setUpState L c kd).kernel_dim_ = kd := rfl
  rw [hkd3, hkd2, hshape]
  simp [weight_shape, setUpState, loop, store, List.range, List.range.loop]

/-- The witness of C16 as amended: one input channel and a 3x3 kernel give
`kernel_dim_ = 9`. -/
theorem C16_kernel_dim_witness :
    (setUpState (freshLayer ⟨3, 1, 1, 1, 1⟩ [zeroBlob [1, 1, 3, 3]] false) 1 9).kernel_dim_
      = (setUpState (freshLayer ⟨3, 1, 1, 1, 1⟩ [zeroBlob [1, 1, 3, 3]] false) 1 9
          ).conv_in_channels_ *
        ((List.range (setUpState (freshLayer ⟨3, 1, 1, 1, 1⟩ [zeroBlob [1, 1, 3, 3]] false) 1 9
            ).num_spatial_axes_.toNat).map
          (setUpState (freshLayer ⟨3, 1, 1, 1, 1⟩ [zeroBlob [1, 1, 3, 3]] false) 1 9
            ).kernel_shape_.data_).prod :=
  (C16_kernel_dim (freshLayer ⟨3, 1, 1, 1, 1⟩ [zeroBlob [1, 1, 3, 3]] false) _
    [zeroBlob [1, 1, 4, 4]] [] rfl).2.2 (zeroBlob [1, 1, 3, 3]) rfl (by decide)

/-- C17, the claim as stated fails: one channel, a 4x4 input, kernel 3, stride 1,
pad 1, dilation 1 and the standard hook; `Reshape` succeeds, the kernel volume is 9
and the output spatial volume 16, and the expansion buffer gets the shape
`[9, 4, 4]`, not `[9, 16]`. -/
theorem C17_counterexample :
    Reshape compute_output_shape
        (setUpState (freshLayer ⟨3, 1, 1, 1, 1⟩ [zeroBlob [1, 1, 3, 3]] false) 1 9)
        [zeroBlob [1, 1, 4, 4]] [zeroBlob []]
      = .ok (reshapeState compute_output_shape
          (setUpState (freshLayer ⟨3, 1, 1, 1, 1⟩ [zeroBlob [1, 1, 3, 3]] false) 1 9)
          (zeroBlob [1, 1, 4, 4]), [zeroBlob [1, 1, 4, 4]]) ∧
    (reshapeState compute_output_shape
        (setUpState (freshLayer ⟨3, 1, 1, 1, 1⟩ [zeroBlob [1, 1, 3, 3]] false) 1 9)
        (zeroBlob [1, 1, 4, 4])).kernel_dim_ = 9 ∧
    (reshapeState compute_output_shape
        (setUpState (freshLayer ⟨3, 1, 1, 1, 1⟩ [zeroBlob [1, 1, 3, 3]] false) 1 9)
        (zeroBlob [1, 1, 4, 4])).conv_out_spatial_dim_ = 16 ∧
    (reshapeState compute_output_shape
        (setUpState (freshLayer ⟨3, 1, 1, 1, 1⟩ [zeroBlob [1, 1, 3, 3]] false) 1 9)
        (zeroBlob [1, 1, 4, 4])).col_buffer_.shape_ = [9, 4, 4] ∧
    (reshapeState compute_output_shape
        (setUpState (freshLayer ⟨3, 1, 1, 1, 1⟩ [zeroBlob [1, 1, 3, 3]] false) 1 9)
        (zeroBlob [1, 1, 4, 4])).col_buffer_.shape_ ≠ [9, 16] := by
  refine ⟨?_, rfl, by decide, by decide, by decide⟩
  rw [Reshape_succeeds compute_output_shape
    (setUpState (freshLayer ⟨3, 1, 1, 1, 1⟩ [zeroBlob [1, 1, 3, 3]] false) 1 9)
    (zeroBlob [1, 1, 4, 4]) [] [zeroBlob []] (by decide) rfl (by simp) (by decide) (by simp)]
  rfl

/-- C17 as amended: after a successful `Reshape` the expansion buffer has the shape
`col_buffer_shape_`, which is `kernel_dim_` followed by the output extents on the
spatial axes; so its first axis is the kernel volume, its remaining axes hold the
output spatial volume, and it has `kernel_dim_ * conv_out_spatial_dim_` elements. -/
theorem C17_col_buffer_shape [One α] (hook : BaseConvolutionLayer α → List Int)
    (L L' : BaseConvolutionLayer α) (bottom top top' : List (Blob α))
    (h : Reshape hook L bottom top = .ok (L', top')) :
    L'.col_buffer_.shape_ = L'.col_buffer_shape_ ∧
    L'.col_buffer_shape_ = L'.kernel_dim_ :: L'.output_shape_.take L'.num_spatial_axes_.toNat ∧
    (L'.col_buffer_.shape_.drop 1).prod = L'.conv_out_spatial_dim_ ∧
    L'.col_buffer_.countAll = L'.kernel_dim_ * L'.conv_out_spatial_dim_ ∧
    L'.col_buffer_.countAll = L'.col_offset_ := by
  obtain ⟨b0, bs, hb, _, _, _, _, _, _, hL, _⟩ := Reshape_ok h
  subst hL
  refine ⟨rfl, rfl, rfl, ?_, ?_⟩
  · simp [Blob.countAll, reshapeState, Blob.Reshape]
  · simp [Blob.countAll, reshapeState, Blob.Reshape]

/-- The witness of C17 as amended: the expansion buffer of the 3x3 scenario has
`9 * 16` elements. -/
theorem C17_col_buffer_shape_witness :
    (reshapeState compute_output_shape
        (setUpState (freshLayer ⟨3, 1, 1, 1, 1⟩ [zeroBlob [1, 1, 3, 3]] false) 1 9)
        (zeroBlob [1, 1, 4, 4])).col_buffer_.countAll
      = (reshapeState compute_output_shape
        (setUpState (freshLayer ⟨3, 1, 1, 1, 1⟩ [zeroBlob [1, 1, 3, 3]] false) 1 9)
        (zeroBlob [1, 1, 4, 4])).kernel_dim_ *
        (reshapeState compute_output_shape
        (setUpState (freshLayer ⟨3, 1, 1, 1, 1⟩ [zeroBlob [1, 1, 3, 3]] false) 1 9)
        (zeroBlob [1, 1, 4, 4])).conv_out_spatial_dim_ :=
  (C17_col_buffer_shape compute_output_shape
    (setUpState (freshLayer ⟨3, 1, 1, 1, 1⟩ [zeroBlob [1, 1, 3, 3]] false) 1 9) _
    [zeroBlob [1, 1, 4, 4]] [zeroBlob []] _
    (Reshape_succeeds compute_output_shape
      (setUpState (freshLayer ⟨3, 1, 1, 1, 1⟩ [zeroBlob [1, 1, 3, 3]] false) 1 9)
      (zeroBlob [1, 1, 4, 4]) [] [zeroBlob []] (by decide) rfl (by simp) (by decide)
      (by simp))).2.2.2.1

/-- C18, the claim as stated fails: an input of rank 3 (shape `[1, 3, 8]`);
`LayerSetUp` succeeds and `num_spatial_axes_` is 2, not `3 - 2`. -/
theorem C18_counterexample :
    (zeroBlob [1, 3, 8]).num_axes = 3 ∧
    LayerSetUp (freshLayer ⟨3, 1, 1, 1, 2⟩ [zeroBlob [2, 3, 3, 3]] false)
        [zeroBlob [1, 3, 8]] []
      = .ok (setUpState (freshLayer ⟨3, 1, 1, 1, 2⟩ [zeroBlob [2, 3, 3, 3]] false) 3 27) ∧
    (setUpState (freshLayer ⟨3, 1, 1, 1, 2⟩ [zeroBlob [2, 3, 3, 3]] false) 3 27
        ).num_spatial_axes_ = 2 ∧
    (setUpState (freshLayer ⟨3, 1, 1, 1, 2⟩ [zeroBlob [2, 3, 3, 3]] false) 3 27
        ).num_spatial_axes_ ≠ (zeroBlob [1, 3, 8]).num_axes - 2 :=
  ⟨rfl, rfl, rfl, by decide⟩

/-- C18 as amended: `LayerSetUp` takes the rank to be 4 whatever the input is, so
after a successful `LayerSetUp` `num_spatial_axes_` is 2; it equals the rank of the
first input minus 2 exactly when that rank is 4. -/
theorem C18_num_spatial_axes (L L' : BaseConvolutionLayer α) (bottom top : List (Blob α))
    (h : LayerSetUp L bottom top = .ok L') :
    L'.num_spatial_axes_ = 2 ∧
    ∃ b0, vecAt bottom 0 = .ok b0 ∧
      (L'.num_spatial_axes_ = b0.num_axes - 2 ↔ b0.num_axes = 4) := by
  obtain ⟨hk, hs, ho, b0, c, w0, kd, hb, hc, hw, hkd, rfl⟩ := LayerSetUp_ok h
  refine ⟨rfl, b0, hb, ?_⟩
  have hn : (setUpState L c kd).num_spatial_axes_ = 2 := rfl
  rw [hn]
  constructor <;> intro h1 <;> omega

/-- The witness of C18 as amended: an input of rank 4. -/
theorem C18_num_spatial_axes_witness :
    (setUpState (freshLayer ⟨3, 1, 1, 1, 2⟩ [zeroBlob [2, 3, 3, 3]] false) 3 27
        ).num_spatial_axes_ = 2 :=
  (C18_num_spatial_axes (freshLayer ⟨3, 1, 1, 1, 2⟩ [zeroBlob [2, 3, 3, 3]] false) _
    [zeroBlob [1, 3, 8, 8]] [] rfl).1

/-! ## Output shapes and the reads of the bypass -/

/-- The extents of a blob from its channel axis on, when that axis exists. -/
theorem drop_eq_getD_cons (l : List Int) (k : Nat) (hk : k < l.length) :
    l.drop k = l.getD k 0 :: l.drop (k + 1) := by
  rw [List.drop_eq_getElem_cons hk]
  simp [List.getD_eq_getElem?_getD, List.getElem?_eq_getElem hk]

/-- C19: on a layer set up by `LayerSetUp`, after a successful `Reshape` every
output blob has the shape of the first input with the channel extent replaced by
`num_output_` and the spatial extents replaced by the entries of `output_shape_`
on the spatial axes (all of `output_shape_` when the hook returned one entry per
spatial axis), the batch extent being kept; `top_dim_` equals `output_offset_`,
which is `num_output_ * conv_out_spatial_dim_`, and `bottom_dim_` is the input
channel count times the product of the input spatial extents. -/
theorem C19_top_shapes [One α] (hook : BaseConvolutionLayer α → List Int)
    (L0 L1 L2 : BaseConvolutionLayer α) (bottom0 top0 : List (Blob α))
    (b0 : Blob α) (bs top top' : List (Blob α))
    (hset : LayerSetUp L0 bottom0 top0 = .ok L1)
    (hresh : Reshape hook L1 (b0 :: bs) top = .ok (L2, top')) :
    top'.length = top.length ∧
    (∀ t ∈ top', t.shape_ =
      b0.shape_.take 1 ++ [L2.num_output_] ++ L2.output_shape_.take 2) ∧
    (L2.output_shape_.length = 2 → ∀ t ∈ top', t.shape_ =
      b0.shape_.take 1 ++ [L2.num_output_] ++ L2.output_shape_) ∧
    L2.top_dim_ = L2.output_offset_ ∧
    L2.output_offset_ = L2.num_output_ * L2.conv_out_spatial_dim_ ∧
    L2.bottom_dim_ = L2.conv_in_channels_ * (b0.shape_.drop 2).prod := by
  obtain ⟨hk, hs, ho, c0, c, w0, kd, hb, hc, hw, hkd, rfl⟩ := LayerSetUp_ok hset
  obtain ⟨b0', bs', hb', hrank, hca, hchan, _, _, _, hL2, ht⟩ := Reshape_ok hresh
  injection hb' with hb1 hb2
  subst hb1 hL2
  have hshapes : ∀ t ∈ top', t.shape_ =
      b0.shape_.take 1 ++ [(reshapeState hook (setUpState L0 c kd) b0).num_output_] ++
        (reshapeState hook (setUpState L0 c kd) b0).output_shape_.take 2 := by
    intro t hmem
    rw [ht] at hmem
    obtain ⟨t0, _, rfl⟩ := List.mem_map.mp hmem
    rfl
  refine ⟨?_, hshapes, ?_, rfl, rfl, ?_⟩
  · rw [ht, List.length_map]
  · intro hlen t hmem
    rw [hshapes t hmem]
    congr 1
    rw [← hlen, List.take_length]
  · have hlen : 1 < b0.shape_.length := by
      have h1 : (1 : Int) < b0.shape_.length := hca.2
      omega
    have hbd : (reshapeState hook (setUpState L0 c kd) b0).bottom_dim_
        = (b0.shape_.drop 1).prod := rfl
    have hcc : (reshapeState hook (setUpState L0 c kd) b0).conv_in_channels_ = c := rfl
    have hch : b0.shape_.getD 1 0 = c := hchan
    rw [hbd, hcc, drop_eq_getD_cons b0.shape_ 1 hlen, List.prod_cons, hch]

/-- The witness of C19: two output channels, kernel 3, stride 1, pad 1 on a batch
of three 1-channel 4x4 inputs; the output blob gets the shape `[3, 2, 4, 4]`. -/
theorem C19_top_shapes_witness :
    (zeroBlob [3, 2, 4, 4]).shape_ =
      (zeroBlob [3, 1, 4, 4]).shape_.take 1 ++
        [(reshapeState compute_output_shape
          (setUpState (freshLayer ⟨3, 1, 1, 1, 2⟩ [zeroBlob [2, 1, 3, 3]] false) 1 9)
          (zeroBlob [3, 1, 4, 4])).num_output_] ++
        (reshapeState compute_output_shape
          (setUpState (freshLayer ⟨3, 1, 1, 1, 2⟩ [zeroBlob [2, 1, 3, 3]] false) 1 9)
          (zeroBlob [3, 1, 4, 4])).output_shape_ :=
  (C19_top_shapes compute_output_shape
    (freshLayer ⟨3, 1, 1, 1, 2⟩ [zeroBlob [2, 1, 3, 3]] false) _ _
    [zeroBlob [1, 1, 9, 9]] [] (zeroBlob [3, 1, 4, 4]) [] [zeroBlob []] _ rfl
    (Reshape_succeeds compute_output_shape
      (setUpState (freshLayer ⟨3, 1, 1, 1, 2⟩ [zeroBlob [2, 1, 3, 3]] false) 1 9)
      (zeroBlob [3, 1, 4, 4]) [] [zeroBlob []] (by decide) rfl (by simp) (by decide)
      (by simp))).2.2.1 (by decide) (zeroBlob [3, 2, 4, 4]) (List.mem_singleton_self _)

/-- C20: take a layer set up by `LayerSetUp` whose weight blob has the shape
`[outputChannels, inputChannels, 1, 1]`, reshaped by `Reshape` with the standard
output-shape hook.  When `is_1x1_` is true, the number of elements the multiply
reads from its column matrix, `col_offset_ = kernel_dim_ * conv_out_spatial_dim_`,
equals `bottom_dim_`, the number of elements of one input sample; every position
`k * conv_out_spatial_dim_ + j` the multiply reads lies below `bottom_dim_`, and
the output of `forward_cpu_gemm` depends only on the input entries below
`bottom_dim_`. -/
theorem C20_bypass_reads_in_sample [Semiring α]
    (L0 L1 L2 : BaseConvolutionLayer α) (bottom0 top0 : List (Blob α))
    (b0 : Blob α) (bs top top2 : List (Blob α)) (w0 : Blob α)
    (hset : LayerSetUp L0 bottom0 top0 = .ok L1)
    (hw0 : vecAt L0.blobs_ 0 = .ok w0)
    (hwshape : w0.shape_ = [L1.conv_out_channels_, L1.conv_in_channels_, 1, 1])
    (hresh : Reshape compute_output_shape L1 (b0 :: bs) top = .ok (L2, top2))
    (h1x1 : L2.is_1x1_ = true) :
    L2.col_offset_ = L2.kernel_dim_ * L2.conv_out_spatial_dim_ ∧
    L2.col_offset_ = L2.bottom_dim_ ∧
    (∀ k j, k < L2.kernel_dim_.toNat → j < L2.conv_out_spatial_dim_.toNat →
      k * L2.conv_out_spatial_dim_.toNat + j < L2.bottom_dim_.toNat) ∧
    (∀ (input input' weights output : Nat → α) (skip_im2col : Bool),
      (∀ idx, idx < L2.bottom_dim_.toNat → input idx = input' idx) →
      (forward_cpu_gemm L2 input weights output skip_im2col).2
        = (forward_cpu_gemm L2 input' weights output skip_im2col).2) := by
  obtain ⟨hk, hs, ho, c0, c, w0', kd, hb, hc, hw, hkd, rfl⟩ := LayerSetUp_ok hset
  rw [hw0] at hw
  injection hw with hw
  subst hw
  obtain ⟨b0', bs', hb', hrank, hca, hchan, _, _, _, hL2, _⟩ := Reshape_ok hresh
  injection hb' with hb1 hb2
  subst hb1
  have h1x1' : (setUpState L0 c kd).is_1x1_ = true := by
    rw [hL2] at h1x1
    exact h1x1
  obtain ⟨hk1, hs1, hp1⟩ := (setUpState_is_1x1_iff L0 c kd).mp h1x1'
  have hlen : b0.shape_.length = 4 := by
    have : (b0.shape_.length : Int) = 1 + 1 + 2 := hrank
    omega
  rcases hsh : b0.shape_ with _ | ⟨n0, _ | ⟨c1, _ | ⟨H, _ | ⟨W, _ | ⟨x, t⟩⟩⟩⟩⟩ <;>
    rw [hsh] at hlen <;> simp at hlen
  have hc1 : c1 = c := by
    have : b0.shape_.getD (1 : Int).toNat 0 = c := hchan
    rw [hsh] at this
    simpa using this
  subst hc1
  have hkd' : kd = c1 := by
    have hws : w0.shape_ = [L0.layer_param_.convParam.output, c1, 1, 1] := hwshape
    have := Blob.countFrom_eq w0 1 (by rw [hws]; simp)
    rw [hws] at this
    have h2 : w0.countFrom ((1 : Nat) : Int) = w0.countFrom 1 := rfl
    rw [h2, hkd] at this
    injection this with this
    rw [this]
    simp
  subst hkd'
  have hhook : compute_output_shape (hookInput (setUpState L0 kd kd) b0) = [H, W] := by
    simp [compute_output_shape, hookInput, setUpState, store, hsh, hk1, hs1, hp1,
      List.range, List.range.loop]
  subst hL2
  have hN : (reshapeState compute_output_shape (setUpState L0 kd kd) b0).conv_out_spatial_dim_
      = H * W := by
    have h : (reshapeState compute_output_shape (setUpState L0 kd kd) b0).conv_out_spatial_dim_
        = ((compute_output_shape (hookInput (setUpState L0 kd kd) b0)).take 2).prod := rfl
    rw [h, hhook]
    simp
  have hK : (reshapeState compute_output_shape (setUpState L0 kd kd) b0).kernel_dim_ = kd := rfl
  have hB : (reshapeState compute_output_shape (setUpState L0 kd kd) b0).bottom_dim_
      = kd * (H * W) := by
    have h : (reshapeState compute_output_shape (setUpState L0 kd kd) b0).bottom_dim_
        = (b0.shape_.drop 1).prod := rfl
    rw [h, hsh]
    simp
  have hO : (reshapeState compute_output_shape (setUpState L0 kd kd) b0).col_offset_
      = (reshapeState compute_output_shape (setUpState L0 kd kd) b0).kernel_dim_ *
        (reshapeState compute_output_shape (setUpState L0 kd kd) b0).conv_out_spatial_dim_ := rfl
  have hbound : ∀ k j, k < kd.toNat → j < (H * W).toNat →
      k * (H * W).toNat + j < (kd * (H * W)).toNat := by
    intro k j hk hj
    have hkd0 : 0 ≤ kd := by omega
    have hX0 : 0 ≤ H * W := by omega
    obtain ⟨cn, rfl⟩ := Int.eq_ofNat_of_zero_le hkd0
    obtain ⟨xn, hxn⟩ := Int.eq_ofNat_of_zero_le hX0
    rw [hxn] at hj ⊢
    rw [← Nat.cast_mul]
    simp only [Int.toNat_ofNat] at hk hj ⊢
    exact index_lt_of_lt hk hj
  refine ⟨hO, ?_, ?_, ?_⟩
  · rw [hO, hK, hN, hB]
  · intro k j hk hj
    rw [hK] at hk
    rw [hN] at hj ⊢
    rw [hB]
    exact hbound k j hk hj
  · intro input input' weights output skip_im2col hin
    unfold forward_cpu_gemm
    simp only [h1x1, Bool.not_true, Bool.false_eq_true, if_false]
    apply caffe_cpu_gemm_congr
    intro k j hk hj
    apply hin
    rw [hK] at hk
    rw [hN] at hj ⊢
    rw [hB]
    exact hbound k j hk hj

/-- The witness of C20: two input channels, a 1x2 input, two output channels, a 1x1
kernel with stride 1 and pad 0; `col_offset_` and `bottom_dim_` are both 4. -/
theorem C20_bypass_reads_in_sample_witness :
    (reshapeState compute_output_shape
        (setUpState (freshLayer ⟨1, 1, 0, 1, 2⟩ [zeroBlob [2, 2, 1, 1]] false) 2 2)
        (zeroBlob [1, 2, 1, 2])).col_offset_
      = (reshapeState compute_output_shape
        (setUpState (freshLayer ⟨1, 1, 0, 1, 2⟩ [zeroBlob [2, 2, 1, 1]] false) 2 2)
        (zeroBlob [1, 2, 1, 2])).bottom_dim_ :=
  (C20_bypass_reads_in_sample
    (freshLayer ⟨1, 1, 0, 1, 2⟩ [zeroBlob [2, 2, 1, 1]] false) _ _
    [zeroBlob [1, 2, 1, 2]] [zeroBlob []] (zeroBlob [1, 2, 1, 2]) [] [zeroBlob []] _
    (zeroBlob [2, 2, 1, 1]) rfl rfl (by decide)
    (Reshape_succeeds compute_output_shape
      (setUpState (freshLayer ⟨1, 1, 0, 1, 2⟩ [zeroBlob [2, 2, 1, 1]] false) 2 2)
      (zeroBlob [1, 2, 1, 2]) [] [zeroBlob []] (by decide) rfl (by simp) (by decide)
      (by simp))
    (by decide)).2.1

end caffe
